import Mathlib

/-!
Pong (SDL2, C): the game state machine and the per-frame pipeline.

A shallow embedding of `src/game/game.c`, `src/game/paddle.c` and the frame loop of
`src/app/app.c`.  The C globals (`fsm`, `player_1`, `player_2`, `ball`, `left_paddle`,
`right_paddle`, `field`) become the fields of one record that every function takes and
returns.  A `float` is the rational it stands for, each `float` operation rounding its
result to binary32; `int` is taken unbounded.
Rendering (`do_output`, the prompt animations) draws only and is left out.
-/

namespace Pong

/-! ## Finite-state machine engine -/

/-- Modelled from the spec: the FSM engine (`fsm/fsm.h`) is absent from src.  Spec §3: a fixed
universe of `state_count` states and `trigger_count` triggers, a mutable current state and a
transition table mapping (state, trigger) to a next state; an entry is either a target or
"no transition". -/
structure fsm_t where
  state_count : Nat
  trigger_count : Nat
  current : Nat
  table : List (List (Option Nat))
deriving DecidableEq

/-- Modelled from the spec: `fsm_init` is absent from src.  Spec §4.1: allocates a
(state_count × trigger_count) table initialised to "no transition", sets the current state to
`initial_state`, and fails when a count is not positive. -/
def fsm_init (state_count trigger_count initial_state : Nat) : Option fsm_t :=
  if state_count = 0 ∨ trigger_count = 0 then none
  else some { state_count := state_count, trigger_count := trigger_count,
              current := initial_state,
              table := List.replicate state_count (List.replicate trigger_count none) }

/-- Modelled from the spec: `fsm_on` is absent from src.  Spec §4.1: registers a transition,
last write wins; out-of-range indices fail. -/
def fsm_on (fsm : fsm_t) (from_state trigger to_state : Nat) : Option fsm_t :=
  if from_state < fsm.state_count ∧ trigger < fsm.trigger_count ∧ to_state < fsm.state_count then
    some { fsm with
      table := fsm.table.set from_state
        ((fsm.table.getD from_state []).set trigger (some to_state)) }
  else none

/-- The table entry at (state, trigger). -/
def fsm_entry (fsm : fsm_t) (state trigger : Nat) : Option Nat :=
  (fsm.table.getD state []).getD trigger none

/-- Modelled from the spec: `fsm_trigger` is absent from src.  Spec §4.1: looks up the table at
(current_state, trigger_id); if an entry exists the current state becomes the target, otherwise
the current state is unchanged.  Never fails. -/
def fsm_trigger (fsm : fsm_t) (trigger : Nat) : fsm_t :=
  match fsm_entry fsm fsm.current trigger with
  | some target => { fsm with current := target }
  | none => fsm

/-- Modelled from the spec: `fsm_state` is absent from src.  Spec §4.1: read accessor of the
current state. -/
def fsm_state (fsm : fsm_t) : Nat := fsm.current

/-! ## Game states and triggers (`enum game_state_enum`, `enum game_trigger_enum`) -/

def STATE_GUARD : Nat := 0
def START_STATE : Nat := 1
def PLAYING_STATE : Nat := 2
def PAUSE_STATE : Nat := 3
def GAME_OVER_STATE : Nat := 4
def TERM_STATE : Nat := 5
def STATE_COUNT : Nat := 6

def INIT_DONE_TRIGGER : Nat := 0
def QUIT_GAME_TRIGGER : Nat := 1
def GAME_OVER_TRIGGER : Nat := 2
def ALWAYS_TRIGGER : Nat := 3
def PAUSE_TRIGGER : Nat := 4
def RESUME_TRIGGER : Nat := 5
def TRIGGER_COUNT : Nat := 6

/-- Function `initialize_game_fsm` (game.c 213-233); the result is the value of the global `fsm`. -/
def initialize_game_fsm : Option fsm_t := do
  let fsm ← fsm_init STATE_COUNT TRIGGER_COUNT START_STATE
  -- Start
  let fsm ← fsm_on fsm START_STATE ALWAYS_TRIGGER PLAYING_STATE
  -- Playing
  let fsm ← fsm_on fsm PLAYING_STATE GAME_OVER_TRIGGER GAME_OVER_STATE
  let fsm ← fsm_on fsm PLAYING_STATE QUIT_GAME_TRIGGER TERM_STATE
  let fsm ← fsm_on fsm PLAYING_STATE PAUSE_TRIGGER PAUSE_STATE
  -- Pause State
  let fsm ← fsm_on fsm PAUSE_STATE QUIT_GAME_TRIGGER TERM_STATE
  let fsm ← fsm_on fsm PAUSE_STATE RESUME_TRIGGER PLAYING_STATE
  -- Game Over
  let fsm ← fsm_on fsm GAME_OVER_STATE ALWAYS_TRIGGER TERM_STATE
  -- Terminating
  let fsm ← fsm_on fsm TERM_STATE ALWAYS_TRIGGER TERM_STATE
  pure fsm

/-- The machine `fsm` is the one built by `initialize_game_fsm`, in whatever current state. -/
def is_game_fsm (fsm : fsm_t) : Prop :=
  initialize_game_fsm.map (fun f => { f with current := fsm.current }) = some fsm

instance (fsm : fsm_t) : Decidable (is_game_fsm fsm) := by
  unfold is_game_fsm; infer_instance

/-- The machine is the game's and its current state is one of the five states that
`game_process_frame` has a case for. -/
def in_game_states (fsm : fsm_t) : Prop :=
  is_game_fsm fsm ∧
    fsm_state fsm ∈ [START_STATE, PLAYING_STATE, PAUSE_STATE, GAME_OVER_STATE, TERM_STATE]

/-- The transition function as the specification documents it (spec §4.1 and §8): the eight
listed transitions, every other pair leaving the state where it is. -/
def documented_transition (state trigger : Nat) : Nat :=
  if state = START_STATE ∧ trigger = ALWAYS_TRIGGER then PLAYING_STATE
  else if state = PLAYING_STATE ∧ trigger = GAME_OVER_TRIGGER then GAME_OVER_STATE
  else if state = PLAYING_STATE ∧ trigger = QUIT_GAME_TRIGGER then TERM_STATE
  else if state = PLAYING_STATE ∧ trigger = PAUSE_TRIGGER then PAUSE_STATE
  else if state = PAUSE_STATE ∧ trigger = QUIT_GAME_TRIGGER then TERM_STATE
  else if state = PAUSE_STATE ∧ trigger = RESUME_TRIGGER then PLAYING_STATE
  else if state = GAME_OVER_STATE ∧ trigger = ALWAYS_TRIGGER then TERM_STATE
  else if state = TERM_STATE ∧ trigger = ALWAYS_TRIGGER then TERM_STATE
  else state

/-- Apply a sequence of triggers, first to last. -/
def fsm_trigger_all (fsm : fsm_t) (triggers : List Nat) : fsm_t :=
  triggers.foldl fsm_trigger fsm

/-! ## Data model -/

/-- Modelled from the spec: `aabb_t` is declared in `aabb.h`, which is absent from src.  Spec §3:
x, y, width and height; these are the fields game.c and paddle.c read and write.  C `int` is
taken unbounded. -/
structure aabb_t where
  x : Int
  y : Int
  w : Int
  h : Int
deriving DecidableEq

/-- Modelled from the spec: `entity_t` is declared in `entity.h`, which is absent from src.  Spec
§3: a rectangular transform and a real-valued velocity (vx, vy); paddle.c reads and writes
exactly these.  The `update` and `out_of_bounds` slots are not stored: the paddles carry the two
functions of paddle.c (set by `paddle_configure`), the ball the two of `collaborators`. -/
structure entity_t where
  transform : aabb_t
  vx : ℚ
  vy : ℚ
deriving DecidableEq

/-- Modelled from the spec: `player_t` (`player.h`) is absent from src.  Spec §3: a player holds a
non-negative integer score. -/
structure player_t where
  score : Nat
deriving DecidableEq

/-- Modelled from the spec: `player_inc_score` is absent from src.  Spec §8: a goal increments the
score by exactly 1. -/
def player_inc_score (player : player_t) : player_t :=
  { player with score := player.score + 1 }

/-- Modelled from the spec: `player_get_score` is absent from src; the read accessor. -/
def player_get_score (player : player_t) : Nat := player.score

/-- Modelled from the spec: `aabb_edge_t` is declared in `aabb.h`, which is absent from src.  Spec
§4.2: none, top, bottom, left, right; paddle.c names `AABB_TOP_EDGE` and `AABB_BOTTOM_EDGE`. -/
inductive aabb_edge_t where
  | AABB_NO_EDGE
  | AABB_TOP_EDGE
  | AABB_BOTTOM_EDGE
  | AABB_LEFT_EDGE
  | AABB_RIGHT_EDGE
deriving DecidableEq

/-- Modelled from the spec: `direction_t` is declared in `entity.h`, which is absent from src;
paddle.c names `DIR_UP` and `DIR_DOWN`, the two horizontal ones complete the set. -/
inductive direction_t where
  | DIR_UP
  | DIR_DOWN
  | DIR_LEFT
  | DIR_RIGHT
deriving DecidableEq

/-- Type `paddle_identifier_t` (paddle.c 75-87). -/
inductive paddle_identifier_t where
  | LEFT_PADDLE
  | RIGHT_PADDLE
deriving DecidableEq

/-- Modelled from the spec: `entity_set_velocity` is absent from src.  Spec §4.4 ("converts
directional booleans into paddle vertical velocities"): it stores the two components. -/
def entity_set_velocity (e : entity_t) (vx vy : ℚ) : entity_t :=
  { e with vx := vx, vy := vy }

/-- Modelled from the spec: `entity_set_direction` is absent from src.  Spec §4.3 ("reverses
vertical motion at top/bottom edges"): it points the velocity component of that axis in the given
direction and keeps its magnitude; y grows downwards. -/
def entity_set_direction (e : entity_t) (dir : direction_t) : entity_t :=
  match dir with
  | .DIR_UP => { e with vy := -|e.vy| }
  | .DIR_DOWN => { e with vy := |e.vy| }
  | .DIR_LEFT => { e with vx := -|e.vx| }
  | .DIR_RIGHT => { e with vx := |e.vx| }

/-- The C conversion `(int)f` of a float: truncation toward zero. -/
def float_to_int (f : ℚ) : Int := if 0 ≤ f then ⌊f⌋ else ⌈f⌉

/-- Rounding to the nearest integer, ties to the even one. -/
def round_half_even (x : ℚ) : Int :=
  if x - ⌊x⌋ < 1 / 2 then ⌊x⌋
  else if 1 / 2 < x - ⌊x⌋ then ⌊x⌋ + 1
  else if ⌊x⌋ % 2 = 0 then ⌊x⌋ else ⌊x⌋ + 1

/-- The position of the highest set bit of `n` (0 for `n` below 2), by halving; `fuel` bounds
the number of halvings and `n` itself is always enough. -/
def highest_bit : Nat → Nat → Nat
  | 0, _ => 0
  | fuel + 1, n => if n < 2 then 0 else highest_bit fuel (n / 2) + 1

/-- The binary exponent of a non-zero value: the `e` with 2^e ≤ |q| < 2^(e+1), found from the
bit lengths of numerator and denominator. -/
def float_exponent (q : ℚ) : Int :=
  if |q| < (2 : ℚ) ^ ((highest_bit q.num.natAbs q.num.natAbs : Int) - highest_bit q.den q.den)
  then (highest_bit q.num.natAbs q.num.natAbs : Int) - highest_bit q.den q.den - 1
  else (highest_bit q.num.natAbs q.num.natAbs : Int) - highest_bit q.den q.den

/-- The value a C `float` (IEEE 754 binary32, round to nearest, ties to even) holds for the
exact result `q` of an operation: `q` rounded to 24 significant bits, the exponent not below
-126 (subnormals).  Overflow to infinity, from magnitude 2^128 on, is not represented. -/
def float_round (q : ℚ) : ℚ :=
  if q = 0 then 0
  else
    round_half_even (q / (2 : ℚ) ^ (max (float_exponent q) (-126) - 23))
      * (2 : ℚ) ^ (max (float_exponent q) (-126) - 23)

/-- The C conversion of a `bool` to `int`. -/
def bool_to_int (b : Bool) : Int := if b then 1 else 0

namespace paddle

/-- Function `update` of paddle.c (14-17): the `float` product is rounded to binary32, then
converted to `int`. -/
def update (paddle : entity_t) (delta : ℚ) : entity_t :=
  let paddle := { paddle with
    transform := { paddle.transform with
      x := paddle.transform.x + float_to_int (float_round (paddle.vx * delta)) } }
  { paddle with
    transform := { paddle.transform with
      y := paddle.transform.y + float_to_int (float_round (paddle.vy * delta)) } }

/-- Function `out_of_bounds` of paddle.c (19-30). -/
def out_of_bounds (self : entity_t) (edge : aabb_edge_t) : entity_t :=
  match edge with
  | .AABB_TOP_EDGE => entity_set_direction self .DIR_DOWN
  | .AABB_BOTTOM_EDGE => entity_set_direction self .DIR_UP
  | _ => self

end paddle

def PADDLE_FIELD_WIDTH_RATIO : Int := 6
def PADDLE_MIN_WIDTH : Int := 8
def PADDLE_MIN_HEIGHT : Int := 128

/-- Function `paddle_configure` of paddle.c (35-105); `/` on C ints truncates. -/
def paddle_configure (paddle : entity_t) (field : aabb_t) (identifier : paddle_identifier_t) :
    entity_t :=
  let unit_scaled_field_width : Int := Int.tdiv (field.x + field.w) PADDLE_FIELD_WIDTH_RATIO
  let field_section : aabb_t := { x := 0, w := unit_scaled_field_width, y := field.y, h := field.h }
  let field_section : aabb_t :=
    match identifier with
    | .LEFT_PADDLE => { field_section with x := field.x }
    | .RIGHT_PADDLE => { field_section with x := (field.x + field.w) - unit_scaled_field_width }
  let field_section_center_x := field_section.x + Int.tdiv field_section.w 2
  let field_section_center_y := field_section.y + Int.tdiv field_section.h 2
  let paddle := { paddle with
    transform := { x := field_section_center_x, y := field_section_center_y,
                   w := PADDLE_MIN_WIDTH, h := PADDLE_MIN_HEIGHT } }
  entity_set_velocity paddle 0 0

/-- The functions game.c calls whose code is absent from src and whose behaviour the
specification leaves open: the ball (`ball.h`), the pairwise collision pass and the edge
classification (`collision.h`, `aabb.h`) and the two goal predicates (`field.h` declares them).
The pool is passed as (ball, left paddle, right paddle), the order of `entity_pool`. -/
structure collaborators where
  ball_configure : entity_t → aabb_t → entity_t
  ball_update : entity_t → ℚ → entity_t
  ball_out_of_bounds : entity_t → aabb_edge_t → entity_t
  collision_process : entity_t × entity_t × entity_t → entity_t × entity_t × entity_t
  aabb_crossed_edge : aabb_t → aabb_t → aabb_edge_t
  field_is_subject_in_left_goal : aabb_t → aabb_t → Bool
  field_is_subject_in_right_goal : aabb_t → aabb_t → Bool

/-- Modelled from the spec: the action enumeration of `actions.h` is absent from src.  Spec §6:
a boolean for each of move-up and move-down of both players, confirm, pause and quit, refreshed
once per frame; game.c indexes it by these seven names. -/
structure actions_t where
  P1_UP : Bool
  P1_DOWN : Bool
  P2_UP : Bool
  P2_DOWN : Bool
  CONFIRM : Bool
  PAUSE : Bool
  QUIT : Bool
deriving DecidableEq

/-- What one iteration of the loop of `app_run` receives from outside: whether the event poll saw
`SDL_QUIT`, the measured delta time and the refreshed action vector. -/
structure frame_input where
  os_quit : Bool
  delta : ℚ
  actions : actions_t
deriving DecidableEq

/-- The state of a game session: the globals of game.c and `app->running`.  Two fields only
observe: `fired` lists every trigger handed to `fsm_trigger`, oldest first, and
`unknown_state_errors` counts the `log_error` calls of the default branch of
`game_process_frame`. -/
structure game_t where
  player_1 : player_t
  player_2 : player_t
  ball : entity_t
  left_paddle : entity_t
  right_paddle : entity_t
  field : aabb_t
  fsm : fsm_t
  running : Bool
  fired : List Nat
  unknown_state_errors : Nat
deriving DecidableEq

/-! ## game.c -/

/-- A call `fsm_trigger(fsm, trigger)` on the global machine, recorded in `fired`. -/
def fire (g : game_t) (trigger : Nat) : game_t :=
  { g with fsm := fsm_trigger g.fsm trigger, fired := g.fired ++ [trigger] }

/-- Function `handle_goal` (game.c 86-89): returns the player it was handed, updated, and the
globals it changed. -/
def handle_goal (env : collaborators) (player : player_t) (g : game_t) : player_t × game_t :=
  (player_inc_score player, { g with ball := env.ball_configure g.ball g.field })

def winning_score : Nat := 5

/-- Function `check_goal_conditions` (game.c 106-133). -/
def check_goal_conditions (env : collaborators) (g : game_t) : game_t :=
  let g :=
    -- Is the ball in the left goal?
    if env.field_is_subject_in_left_goal g.field g.ball.transform then
      -- player 2 gets the point
      let r := handle_goal env g.player_2 g
      { r.2 with player_2 := r.1 }
    -- Is the ball in the right goal?
    else if env.field_is_subject_in_right_goal g.field g.ball.transform then
      -- player 1 gets the point
      let r := handle_goal env g.player_1 g
      { r.2 with player_1 := r.1 }
    else g
  -- Did player 1 win?
  if player_get_score g.player_1 ≥ winning_score then fire g GAME_OVER_TRIGGER
  -- Did player 2 win?
  else if player_get_score g.player_2 ≥ winning_score then fire g GAME_OVER_TRIGGER
  else g

/-- Function `do_input` (game.c 139-158). -/
def do_input (actions : actions_t) (g : game_t) : game_t :=
  let g :=
    if actions.QUIT then fire g QUIT_GAME_TRIGGER
    else if actions.PAUSE then fire g PAUSE_TRIGGER
    else g
  let p1_up := actions.P1_UP
  let p1_down := actions.P1_DOWN
  let p2_up := actions.P2_UP
  let p2_down := actions.P2_DOWN
  let g := { g with left_paddle :=
    entity_set_velocity g.left_paddle 0 (((bool_to_int p1_down - bool_to_int p1_up) * 200 : Int) : ℚ) }
  { g with right_paddle :=
    entity_set_velocity g.right_paddle 0 (((bool_to_int p2_down - bool_to_int p2_up) * 200 : Int) : ℚ) }

/-- Pairwise collision pass `collision_process(entity_count, entity_pool)` over the pool. -/
def collision_process (env : collaborators) (g : game_t) : game_t :=
  let r := env.collision_process (g.ball, g.left_paddle, g.right_paddle)
  { g with ball := r.1, left_paddle := r.2.1, right_paddle := r.2.2 }

/-- Modelled from the spec: the positional part of a paddle's boundary response is absent from
src (`out_of_bounds` of paddle.c only turns the direction).  Spec §4.3 step 2: for paddles the
response "clamps/reverses vertical motion at top/bottom edges (paddles cannot leave the field
vertically)": a paddle across the top edge is put back with its top on that edge, one across
the bottom edge with its bottom on that edge. -/
def clamp_to_field (field : aabb_t) (e : entity_t) (edge : aabb_edge_t) : entity_t :=
  match edge with
  | .AABB_TOP_EDGE => { e with transform := { e.transform with y := field.y } }
  | .AABB_BOTTOM_EDGE =>
    { e with transform := { e.transform with y := field.y + field.h - e.transform.h } }
  | _ => e

/-- Modelled from the spec: the dispatch of the boundary step is absent from src.  Spec §4.3
step 2: on a crossing, invoke the entity's out-of-bounds callback with the edge; without a
crossing the entity is left as it is. -/
def out_of_bounds_response (callback : entity_t → aabb_edge_t → entity_t) (edge : aabb_edge_t)
    (e : entity_t) : entity_t :=
  match edge with
  | .AABB_NO_EDGE => e
  | edge => callback e edge

/-- Modelled from the spec: `collision_out_of_bounds_process` is absent from src.  Spec §4.3 step
2: for each entity, classify edge-crossing against the field AABB; on a crossing, invoke the
entity's out-of-bounds callback with the edge; for paddles this clamps and reverses, for the
ball it only acts on the velocity. -/
def collision_out_of_bounds_process (env : collaborators) (g : game_t) : game_t :=
  { g with
    ball :=
      out_of_bounds_response env.ball_out_of_bounds
        (env.aabb_crossed_edge g.field g.ball.transform) g.ball,
    left_paddle :=
      out_of_bounds_response
        (fun e edge => paddle.out_of_bounds (clamp_to_field g.field e edge) edge)
        (env.aabb_crossed_edge g.field g.left_paddle.transform) g.left_paddle,
    right_paddle :=
      out_of_bounds_response
        (fun e edge => paddle.out_of_bounds (clamp_to_field g.field e edge) edge)
        (env.aabb_crossed_edge g.field g.right_paddle.transform) g.right_paddle }

/-- The entity-update loop of `do_update` (game.c 171-174): `e->update(e, delta)` for the ball,
the left paddle and the right paddle. -/
def update_entities (env : collaborators) (delta : ℚ) (g : game_t) : game_t :=
  { g with
    ball := env.ball_update g.ball delta,
    left_paddle := paddle.update g.left_paddle delta,
    right_paddle := paddle.update g.right_paddle delta }

/-- Function `do_update` (game.c 165-178). -/
def do_update (env : collaborators) (delta : ℚ) (g : game_t) : game_t :=
  -- --- Collision
  let g := collision_process env g
  let g := collision_out_of_bounds_process env g
  -- --- Entity Updates
  let g := update_entities env delta g
  -- --- Goal Polling
  check_goal_conditions env g

/-- The simulation step in the order the specification gives (spec §2 and §4.3 step 3): motion
integration, then pairwise resolution, then boundary resolution, goal detection last. -/
def do_update_as_specified (env : collaborators) (delta : ℚ) (g : game_t) : game_t :=
  check_goal_conditions env
    (collision_out_of_bounds_process env (collision_process env (update_entities env delta g)))

/-- The session at the point of a Playing frame where the boundary resolution of `do_update`
has just run (game.c 168), after `do_input` and the pairwise pass and before the entity
updates. -/
def after_boundary_resolution (env : collaborators) (actions : actions_t) (g : game_t) : game_t :=
  collision_out_of_bounds_process env (collision_process env (do_input actions g))

/-- The vertical extent of the entity lies inside that of the field. -/
def within_vertical_bounds (field : aabb_t) (e : entity_t) : Prop :=
  field.y ≤ e.transform.y ∧ e.transform.y + e.transform.h ≤ field.y + field.h

instance (field : aabb_t) (e : entity_t) : Decidable (within_vertical_bounds field e) := by
  unfold within_vertical_bounds; infer_instance

/-- Function `playing_state_process_frame` (game.c 203-207); `do_output` only draws. -/
def playing_state_process_frame (env : collaborators) (actions : actions_t) (delta : ℚ)
    (g : game_t) : game_t :=
  do_update env delta (do_input actions g)

/-- The session after a sequence of Playing frames, each given by its action vector and its
delta time. -/
def playing_frames (env : collaborators) (frames : List (actions_t × ℚ)) (g : game_t) : game_t :=
  frames.foldl (fun g frame => playing_state_process_frame env frame.1 frame.2 g) g

/-- Function `start_state_process_frame` (game.c 280-313), without the prompt animation. -/
def start_state_process_frame (actions : actions_t) (g : game_t) : game_t :=
  if actions.CONFIRM then fire g ALWAYS_TRIGGER
  else if actions.QUIT then fire g QUIT_GAME_TRIGGER
  else g

/-- Function `pause_state_process_frame` (game.c 315-367), without the drawing. -/
def pause_state_process_frame (actions : actions_t) (g : game_t) : game_t :=
  if actions.CONFIRM then fire g RESUME_TRIGGER
  else if actions.QUIT then fire g QUIT_GAME_TRIGGER
  else g

/-- Function `app_stop` (app.c 147). -/
def app_stop (g : game_t) : game_t := { g with running := false }

/-- Function `game_process_frame` (game.c 372-395). -/
def game_process_frame (env : collaborators) (actions : actions_t) (delta : ℚ) (g : game_t) :
    game_t :=
  if fsm_state g.fsm = START_STATE then start_state_process_frame actions g
  else if fsm_state g.fsm = PLAYING_STATE then playing_state_process_frame env actions delta g
  else if fsm_state g.fsm = PAUSE_STATE then pause_state_process_frame actions g
  else if fsm_state g.fsm = GAME_OVER_STATE then fire g ALWAYS_TRIGGER
  else if fsm_state g.fsm = TERM_STATE then app_stop g
  else { g with unknown_state_errors := g.unknown_state_errors + 1 }

/-- Function `game_init` (game.c 235-262), given the window size that `video_get_window_size`
reports; `app_init` leaves `running` false.  The C globals start zeroed. -/
def game_init (env : collaborators) (window_width window_height : Int) : Option game_t := do
  let zero : entity_t := { transform := { x := 0, y := 0, w := 0, h := 0 }, vx := 0, vy := 0 }
  let field : aabb_t := { x := 0, y := 0, w := window_width, h := window_height }
  let fsm ← initialize_game_fsm
  pure { player_1 := { score := 0 }, player_2 := { score := 0 },
         ball := env.ball_configure zero field,
         left_paddle := paddle_configure zero field .LEFT_PADDLE,
         right_paddle := paddle_configure zero field .RIGHT_PADDLE,
         field := field, fsm := fsm, running := false, fired := [], unknown_state_errors := 0 }

/-! ## app.c -/

/-- The delta time of a frame as `app_run` measures it (app.c 106-108): the difference of two
`uint64_t` tick counts in milliseconds is converted to `float` and divided by `1000.0f`, both
steps rounding to binary32; in seconds. -/
def frame_delta (prev_frame_ticks curr_frame_ticks : Nat) : ℚ :=
  float_round
    (float_round (((curr_frame_ticks + 2 ^ 64 - prev_frame_ticks) % 2 ^ 64 : Nat) : ℚ) / 1000)

/-- One iteration of the loop of `app_run` (app.c 102-142): an `SDL_QUIT` event clears `running`,
then the frame is processed all the same. -/
def app_frame (env : collaborators) (input : frame_input) (g : game_t) : game_t :=
  let g := if input.os_quit then { g with running := false } else g
  game_process_frame env input.actions input.delta g

/-- The loop `while (app->running)` of `app_run` over the inputs of the successive frames; the
result lists the state before the first frame and after each frame that ran. -/
def app_loop (env : collaborators) : List frame_input → game_t → List game_t
  | [], g => [g]
  | input :: rest, g =>
    if g.running then g :: app_loop env rest (app_frame env input g) else [g]

/-- Function `app_run` (app.c 64-145) with `game_process_frame` as frame processor: sets
`running`, then loops. -/
def app_run (env : collaborators) (inputs : List frame_input) (g : game_t) : List game_t :=
  app_loop env inputs { g with running := true }

/-- How many times the game-over trigger has been fired so far. -/
def game_over_fired (g : game_t) : Nat := g.fired.count GAME_OVER_TRIGGER

/-! ## A reference choice of the absent functions -/

/-- Modelled from the spec: `aabb_intersects` is absent from src.  Spec §4.2: the standard
rectangle-overlap test, true iff both the x-ranges and the y-ranges overlap. -/
def aabb_intersects (a b : aabb_t) : Bool :=
  decide (a.x < b.x + b.w ∧ b.x < a.x + a.w ∧ a.y < b.y + b.h ∧ b.y < a.y + a.h)

/-- Modelled from the spec: the edge classification of `aabb.h` is absent from src.  Spec §4.2:
which single boundary edge `subject` has crossed relative to `bounds`, or none. -/
def aabb_crossed_edge (bounds subject : aabb_t) : aabb_edge_t :=
  if subject.y < bounds.y then .AABB_TOP_EDGE
  else if bounds.y + bounds.h < subject.y + subject.h then .AABB_BOTTOM_EDGE
  else if subject.x < bounds.x then .AABB_LEFT_EDGE
  else if bounds.x + bounds.w < subject.x + subject.w then .AABB_RIGHT_EDGE
  else .AABB_NO_EDGE

/-- Modelled from the spec: the ball-versus-paddle policy of `collision.h` is absent from src.
Spec §4.3 step 1: on overlap, reflect the ball's horizontal velocity component and reposition the
ball outside the paddle's box. -/
def resolve_ball_paddle (ball paddle : entity_t) : entity_t :=
  if aabb_intersects ball.transform paddle.transform then
    { ball with
      vx := -ball.vx,
      transform := { ball.transform with
        x := if ball.vx < 0 then paddle.transform.x + paddle.transform.w
             else paddle.transform.x - ball.transform.w } }
  else ball

/-- Modelled from the spec: `ball.h`, `collision.h`, `aabb.h` and the code behind `field.h` are
absent from src.  Spec §8: the ball starts centred with a rightward velocity and a goal resets it
there (the size 16 and the speed 200 are not in the spec); §4.3: the ball moves by velocity times
delta, bounces off the top and bottom edges, and its left and right exits are left to the goal
check; §4.2: a goal predicate holds when the subject's leading edge has passed that boundary. -/
def reference_collaborators : collaborators where
  ball_configure := fun ball field =>
    { ball with
      transform := { x := field.x + Int.tdiv field.w 2, y := field.y + Int.tdiv field.h 2,
                     w := 16, h := 16 },
      vx := 200, vy := 0 }
  ball_update := paddle.update
  ball_out_of_bounds := paddle.out_of_bounds
  collision_process := fun pool =>
    (resolve_ball_paddle (resolve_ball_paddle pool.1 pool.2.1) pool.2.2, pool.2.1, pool.2.2)
  aabb_crossed_edge := aabb_crossed_edge
  field_is_subject_in_left_goal := fun field subject => decide (subject.x < field.x)
  field_is_subject_in_right_goal := fun field subject =>
    decide (field.x + field.w < subject.x + subject.w)

/-! ## Sample sessions -/

/-- A sample session: the one `game_init` returns on an 800 by 600 window with the reference
functions, its machine put in the given state. -/
def sample_session (state : Nat) : game_t :=
  { player_1 := { score := 0 }, player_2 := { score := 0 },
    ball := { transform := { x := 400, y := 300, w := 16, h := 16 }, vx := 200, vy := 0 },
    left_paddle := { transform := { x := 66, y := 300, w := 8, h := 128 }, vx := 0, vy := 0 },
    right_paddle := { transform := { x := 733, y := 300, w := 8, h := 128 }, vx := 0, vy := 0 },
    field := { x := 0, y := 0, w := 800, h := 600 },
    fsm := { state_count := 6, trigger_count := 6, current := state,
             table := [[none, none, none, none, none, none],
                       [none, none, none, some 2, none, none],
                       [none, some 5, some 4, none, some 3, none],
                       [none, some 5, none, none, none, some 2],
                       [none, none, none, some 5, none, none],
                       [none, none, none, some 5, none, none]] },
    running := false, fired := [], unknown_state_errors := 0 }

/-- The sample session in Playing with the ball past the left boundary. -/
def sample_left_goal : game_t :=
  { sample_session PLAYING_STATE with
    ball := { transform := { x := -4, y := 300, w := 16, h := 16 }, vx := -200, vy := 0 } }

/-- The sample session in Playing with the ball past the right boundary. -/
def sample_right_goal : game_t :=
  { sample_session PLAYING_STATE with
    ball := { transform := { x := 788, y := 300, w := 16, h := 16 }, vx := 200, vy := 0 } }

/-- The sample session in Playing with the left paddle moved up to the top edge of the field,
still inside it. -/
def sample_paddle_at_top : game_t :=
  { sample_session PLAYING_STATE with
    left_paddle := { transform := { x := 66, y := 0, w := 8, h := 128 }, vx := 0, vy := 0 } }

/-- The left paddle of the sample session as `do_input` leaves it while player 1 holds down. -/
def sample_moving_paddle : entity_t :=
  { transform := { x := 66, y := 300, w := 8, h := 128 }, vx := 0, vy := 200 }

/-- The action vector with nothing pressed. -/
def no_actions : actions_t :=
  { P1_UP := false, P1_DOWN := false, P2_UP := false, P2_DOWN := false,
    CONFIRM := false, PAUSE := false, QUIT := false }

/-- Inputs of a sample match on the sample session: confirm the start prompt; move the right
paddle down out of the ball's row; then five frames of two seconds, in each of which the ball
leaves through the right boundary and player 1 scores; then three more frames. -/
def sample_inputs : List frame_input :=
  [ { os_quit := false, delta := 0, actions := { no_actions with CONFIRM := true } },
    { os_quit := false, delta := 1 / 10, actions := { no_actions with P2_DOWN := true } },
    { os_quit := false, delta := 2, actions := no_actions },
    { os_quit := false, delta := 2, actions := no_actions },
    { os_quit := false, delta := 2, actions := no_actions },
    { os_quit := false, delta := 2, actions := no_actions },
    { os_quit := false, delta := 2, actions := no_actions },
    { os_quit := false, delta := 1 / 60, actions := no_actions },
    { os_quit := false, delta := 1 / 60, actions := no_actions },
    { os_quit := false, delta := 1 / 60, actions := no_actions } ]

/-- Inputs of the sample match in which player 1 or 2 presses pause in the very frame of the
fifth goal, then confirms to resume; the frames after the resume have delta 0, so that no
further goal is scored. -/
def pause_on_winning_goal_inputs : List frame_input :=
  [ { os_quit := false, delta := 0, actions := { no_actions with CONFIRM := true } },
    { os_quit := false, delta := 1 / 10, actions := { no_actions with P2_DOWN := true } },
    { os_quit := false, delta := 2, actions := no_actions },
    { os_quit := false, delta := 2, actions := no_actions },
    { os_quit := false, delta := 2, actions := no_actions },
    { os_quit := false, delta := 2, actions := no_actions },
    { os_quit := false, delta := 2, actions := { no_actions with PAUSE := true } },
    { os_quit := false, delta := 0, actions := { no_actions with CONFIRM := true } },
    { os_quit := false, delta := 0, actions := no_actions },
    { os_quit := false, delta := 0, actions := no_actions },
    { os_quit := false, delta := 0, actions := no_actions } ]

/-- The run of the sample match. -/
def sample_run : List game_t :=
  app_run reference_collaborators sample_inputs (sample_session START_STATE)

/-- The state at index `k` of a run, the last state for an index past the end. -/
def state_at (run : List game_t) (k : Nat) : game_t :=
  run.getD k (run.getLastD (sample_session START_STATE))

end Pong

/-! # Theorems -/

namespace Pong

/-! ## The game's state machine -/

/-- The machine that `initialize_game_fsm` builds, written out. -/
theorem initialize_game_fsm_eq :
    initialize_game_fsm = some
      { state_count := 6, trigger_count := 6, current := 1,
        table := [[none, none, none, none, none, none],
                  [none, none, none, some 2, none, none],
                  [none, some 5, some 4, none, some 3, none],
                  [none, some 5, none, none, none, some 2],
                  [none, none, none, some 5, none, none],
                  [none, none, none, some 5, none, none]] } := by
  decide

theorem is_game_fsm_iff (fsm : fsm_t) :
    is_game_fsm fsm ↔ fsm =
      { state_count := 6, trigger_count := 6, current := fsm.current,
        table := [[none, none, none, none, none, none],
                  [none, none, none, some 2, none, none],
                  [none, some 5, some 4, none, some 3, none],
                  [none, some 5, none, none, none, some 2],
                  [none, none, none, some 5, none, none],
                  [none, none, none, some 5, none, none]] } := by
  unfold is_game_fsm
  rw [initialize_game_fsm_eq]
  simp only [Option.map_some', Option.some.injEq]
  exact eq_comm

/-- Firing a trigger keeps the table, so the machine stays the game's machine. -/
theorem is_game_fsm_trigger (fsm : fsm_t) (trigger : Nat) (h : is_game_fsm fsm) :
    is_game_fsm (fsm_trigger fsm trigger) := by
  rw [is_game_fsm_iff] at h ⊢
  unfold fsm_trigger
  split
  · rw [h]
  · exact h

/-- On the game's machine, an in-range trigger moves an in-range state as documented. -/
theorem fsm_trigger_documented (fsm : fsm_t) (trigger : Nat) (h : is_game_fsm fsm)
    (hs : fsm.current < STATE_COUNT) (ht : trigger < TRIGGER_COUNT) :
    (fsm_trigger fsm trigger).current = documented_transition fsm.current trigger := by
  rw [is_game_fsm_iff] at h
  generalize hc : fsm.current = c at h hs
  subst h
  simp only [STATE_COUNT, TRIGGER_COUNT] at hs ht
  interval_cases c <;> interval_cases trigger <;> rfl

theorem documented_transition_term (trigger : Nat) :
    documented_transition TERM_STATE trigger = TERM_STATE := by
  unfold documented_transition
  simp [TERM_STATE, START_STATE, PLAYING_STATE, PAUSE_STATE, GAME_OVER_STATE]

/-- The five states of the game are closed under every documented transition. -/
theorem documented_transition_mem (state trigger : Nat)
    (h : state ∈ [START_STATE, PLAYING_STATE, PAUSE_STATE, GAME_OVER_STATE, TERM_STATE]) :
    documented_transition state trigger ∈
      [START_STATE, PLAYING_STATE, PAUSE_STATE, GAME_OVER_STATE, TERM_STATE] := by
  unfold documented_transition
  split_ifs <;> first | exact h | simp

theorem game_state_lt (state : Nat)
    (h : state ∈ [START_STATE, PLAYING_STATE, PAUSE_STATE, GAME_OVER_STATE, TERM_STATE]) :
    state < STATE_COUNT := by
  simp [START_STATE, PLAYING_STATE, PAUSE_STATE, GAME_OVER_STATE, TERM_STATE] at h
  rcases h with h | h | h | h | h <;> subst h <;> decide

/-- C1: the machine built by `initialize_game_fsm` exists, starts in Start, and from each of the
6 states under each of the 6 triggers moves exactly as documented (the eight registered
transitions, every other pair leaving the state unchanged); one "always" trigger from the
initial state gives Playing. -/
theorem initialize_game_fsm_transitions :
    initialize_game_fsm.map fsm_state = some START_STATE ∧
    (∀ s t : Fin 6,
      initialize_game_fsm.map (fun fsm => fsm_state (fsm_trigger { fsm with current := s } t))
        = some (documented_transition s t)) ∧
    initialize_game_fsm.map (fun fsm => fsm_state (fsm_trigger fsm ALWAYS_TRIGGER))
      = some PLAYING_STATE := by
  decide

/-- C2: Terminate is absorbing: on the game's machine in state Terminate, after every prefix of
every sequence of the six triggers the state is still Terminate. -/
theorem terminate_is_absorbing (fsm : fsm_t) (triggers : List Nat)
    (hfsm : is_game_fsm fsm) (hterm : fsm_state fsm = TERM_STATE)
    (htrig : ∀ t ∈ triggers, t < TRIGGER_COUNT) :
    ∀ p, p <+: triggers → fsm_state (fsm_trigger_all fsm p) = TERM_STATE := by
  intro p hp
  have hin : ∀ t ∈ p, t < TRIGGER_COUNT := fun t ht => htrig t (hp.subset ht)
  clear hp htrig
  induction p generalizing fsm with
  | nil => exact hterm
  | cons t rest ih =>
    unfold fsm_trigger_all
    rw [List.foldl_cons]
    apply ih (fsm_trigger fsm t) (is_game_fsm_trigger fsm t hfsm)
    · unfold fsm_state at hterm ⊢
      rw [fsm_trigger_documented fsm t hfsm (by rw [hterm]; decide)
        (hin t (List.mem_cons_self t rest)), hterm]
      exact documented_transition_term t
    · exact fun u hu => hin u (List.mem_cons_of_mem t hu)

theorem terminate_is_absorbing_witness :
    fsm_state (fsm_trigger_all
      { state_count := 6, trigger_count := 6, current := 5,
        table := [[none, none, none, none, none, none],
                  [none, none, none, some 2, none, none],
                  [none, some 5, some 4, none, some 3, none],
                  [none, some 5, none, none, none, some 2],
                  [none, none, none, some 5, none, none],
                  [none, none, none, some 5, none, none]] }
      [RESUME_TRIGGER, ALWAYS_TRIGGER, QUIT_GAME_TRIGGER]) = TERM_STATE :=
  terminate_is_absorbing _
    [RESUME_TRIGGER, ALWAYS_TRIGGER, QUIT_GAME_TRIGGER, GAME_OVER_TRIGGER, PAUSE_TRIGGER,
      INIT_DONE_TRIGGER]
    (by decide) (by decide) (by decide)
    [RESUME_TRIGGER, ALWAYS_TRIGGER, QUIT_GAME_TRIGGER] (by decide)

/-! ## Effects of the frame functions on the machine and on the trigger record -/

theorem fire_fsm (g : game_t) (trigger : Nat) : (fire g trigger).fsm = fsm_trigger g.fsm trigger :=
  rfl

theorem fire_fired (g : game_t) (trigger : Nat) : (fire g trigger).fired = g.fired ++ [trigger] :=
  rfl

theorem do_input_fsm (actions : actions_t) (g : game_t) :
    (do_input actions g).fsm =
      if actions.QUIT then fsm_trigger g.fsm QUIT_GAME_TRIGGER
      else if actions.PAUSE then fsm_trigger g.fsm PAUSE_TRIGGER
      else g.fsm := by
  unfold do_input
  split_ifs <;> rfl

theorem do_input_fired (actions : actions_t) (g : game_t) :
    (do_input actions g).fired =
      if actions.QUIT then g.fired ++ [QUIT_GAME_TRIGGER]
      else if actions.PAUSE then g.fired ++ [PAUSE_TRIGGER]
      else g.fired := by
  unfold do_input
  split_ifs <;> rfl

/-- The winner check of `check_goal_conditions` fires game-over exactly when a score at the end
of the function is at least 5, and the function touches the machine in no other way. -/
theorem check_goal_conditions_fsm (env : collaborators) (g : game_t) :
    (check_goal_conditions env g).fsm =
      if 5 ≤ (check_goal_conditions env g).player_1.score
          ∨ 5 ≤ (check_goal_conditions env g).player_2.score
      then fsm_trigger g.fsm GAME_OVER_TRIGGER else g.fsm := by
  unfold check_goal_conditions
  simp only [handle_goal, player_get_score, winning_score, ge_iff_le, fire]
  split_ifs <;> first | rfl | omega | simp_all

theorem check_goal_conditions_fired (env : collaborators) (g : game_t) :
    (check_goal_conditions env g).fired =
      if 5 ≤ (check_goal_conditions env g).player_1.score
          ∨ 5 ≤ (check_goal_conditions env g).player_2.score
      then g.fired ++ [GAME_OVER_TRIGGER] else g.fired := by
  unfold check_goal_conditions
  simp only [handle_goal, player_get_score, winning_score, ge_iff_le, fire]
  split_ifs <;> first | rfl | omega | simp_all

theorem do_update_fsm (env : collaborators) (delta : ℚ) (g : game_t) :
    (do_update env delta g).fsm =
      if 5 ≤ (do_update env delta g).player_1.score ∨ 5 ≤ (do_update env delta g).player_2.score
      then fsm_trigger g.fsm GAME_OVER_TRIGGER else g.fsm := by
  unfold do_update
  exact check_goal_conditions_fsm env _

theorem do_update_fired (env : collaborators) (delta : ℚ) (g : game_t) :
    (do_update env delta g).fired =
      if 5 ≤ (do_update env delta g).player_1.score ∨ 5 ≤ (do_update env delta g).player_2.score
      then g.fired ++ [GAME_OVER_TRIGGER] else g.fired := by
  unfold do_update
  exact check_goal_conditions_fired env _

theorem game_init_sample :
    game_init reference_collaborators 800 600 = some (sample_session START_STATE) := by
  decide!

/-! ## What a frame preserves -/

theorem in_game_states_trigger (fsm : fsm_t) (trigger : Nat) (h : in_game_states fsm)
    (ht : trigger < TRIGGER_COUNT) : in_game_states (fsm_trigger fsm trigger) := by
  refine ⟨is_game_fsm_trigger fsm trigger h.1, ?_⟩
  unfold fsm_state
  rw [fsm_trigger_documented fsm trigger h.1 (game_state_lt _ h.2) ht]
  exact documented_transition_mem _ _ h.2

theorem in_game_states_do_input (actions : actions_t) (g : game_t) (h : in_game_states g.fsm) :
    in_game_states (do_input actions g).fsm := by
  rw [do_input_fsm]
  split_ifs
  · exact in_game_states_trigger _ _ h (by decide)
  · exact in_game_states_trigger _ _ h (by decide)
  · exact h

theorem in_game_states_do_update (env : collaborators) (delta : ℚ) (g : game_t)
    (h : in_game_states g.fsm) : in_game_states (do_update env delta g).fsm := by
  rw [do_update_fsm]
  split_ifs
  · exact in_game_states_trigger _ _ h (by decide)
  · exact h

theorem in_game_states_start (actions : actions_t) (g : game_t) (h : in_game_states g.fsm) :
    in_game_states (start_state_process_frame actions g).fsm := by
  unfold start_state_process_frame
  split_ifs
  · exact in_game_states_trigger _ _ h (by decide)
  · exact in_game_states_trigger _ _ h (by decide)
  · exact h

theorem in_game_states_pause (actions : actions_t) (g : game_t) (h : in_game_states g.fsm) :
    in_game_states (pause_state_process_frame actions g).fsm := by
  unfold pause_state_process_frame
  split_ifs
  · exact in_game_states_trigger _ _ h (by decide)
  · exact in_game_states_trigger _ _ h (by decide)
  · exact h

theorem in_game_states_frame (env : collaborators) (actions : actions_t) (delta : ℚ)
    (g : game_t) (h : in_game_states g.fsm) :
    in_game_states (game_process_frame env actions delta g).fsm := by
  unfold game_process_frame
  split_ifs
  · exact in_game_states_start _ _ h
  · exact in_game_states_do_update _ _ _ (in_game_states_do_input _ _ h)
  · exact in_game_states_pause _ _ h
  · exact in_game_states_trigger _ _ h (by decide)
  · exact h
  · exact h

theorem in_game_states_app_frame (env : collaborators) (input : frame_input) (g : game_t)
    (h : in_game_states g.fsm) : in_game_states (app_frame env input g).fsm := by
  unfold app_frame
  apply in_game_states_frame
  split_ifs <;> exact h

/-- The error count moves only in the default branch of `game_process_frame`. -/
theorem frame_unknown_state_errors (env : collaborators) (actions : actions_t) (delta : ℚ)
    (g : game_t) (h : in_game_states g.fsm) :
    (game_process_frame env actions delta g).unknown_state_errors = g.unknown_state_errors := by
  have hs := h.2
  simp only [List.mem_cons, List.mem_singleton, List.not_mem_nil, or_false] at hs
  unfold game_process_frame
  split_ifs with h1 h2 h3 h4 h5
  · unfold start_state_process_frame
    split_ifs <;> rfl
  · unfold playing_state_process_frame do_update check_goal_conditions do_input
    simp only [handle_goal, fire]
    split_ifs <;> rfl
  · unfold pause_state_process_frame
    split_ifs <;> rfl
  · rfl
  · rfl
  · rcases hs with hs | hs | hs | hs | hs <;> contradiction

/-- A property kept by every iteration of the loop holds in every state of a run. -/
theorem app_loop_invariant (env : collaborators) (P : game_t → Prop)
    (hstep : ∀ input g, P g → P (app_frame env input g)) (inputs : List frame_input) :
    ∀ g, P g → ∀ g1 ∈ app_loop env inputs g, P g1 := by
  induction inputs with
  | nil =>
    intro g hg g1 hg1
    simp only [app_loop, List.mem_singleton] at hg1
    exact hg1 ▸ hg
  | cons input rest ih =>
    intro g hg g1 hg1
    unfold app_loop at hg1
    split_ifs at hg1
    · rcases List.mem_cons.1 hg1 with h | h
      · exact h ▸ hg
      · exact ih _ (hstep input g hg) g1 h
    · exact (List.mem_singleton.1 hg1) ▸ hg

theorem app_loop_running (env : collaborators) (input : frame_input) (rest : List frame_input)
    (g : game_t) (h : g.running = true) :
    app_loop env (input :: rest) g = g :: app_loop env rest (app_frame env input g) := by
  rw [app_loop, if_pos h]

theorem app_loop_stopped (env : collaborators) (inputs : List frame_input) (g : game_t)
    (h : g.running = false) : app_loop env inputs g = [g] := by
  cases inputs with
  | nil => rfl
  | cons input rest => rw [app_loop, if_neg (by simp [h])]

theorem app_loop_head (env : collaborators) (inputs : List frame_input) (g : game_t) :
    (app_loop env inputs g)[0]? = some g := by
  cases inputs with
  | nil => rfl
  | cons input rest =>
    unfold app_loop
    split_ifs <;> simp

/-- The states of a run from index `i` on are the run of the remaining inputs from the state at
index `i`. -/
theorem app_loop_drop (env : collaborators) (i : Nat) :
    ∀ (inputs : List frame_input) (g gi : game_t), (app_loop env inputs g)[i]? = some gi →
      (app_loop env inputs g).drop i = app_loop env (inputs.drop i) gi := by
  induction i with
  | zero =>
    intro inputs g gi h
    rw [app_loop_head] at h
    cases h
    simp
  | succ i ih =>
    intro inputs g gi h
    cases inputs with
    | nil => simp [app_loop] at h
    | cons input rest =>
      cases hr : g.running with
      | false => simp [app_loop_stopped env _ g hr] at h
      | true =>
        rw [app_loop_running env input rest g hr] at h ⊢
        simp only [List.getElem?_cons_succ] at h
        simpa using ih rest _ gi h

theorem game_init_in_game_states (env : collaborators) (w h : Int) (g0 : game_t)
    (hinit : game_init env w h = some g0) :
    in_game_states g0.fsm ∧ fsm_state g0.fsm = START_STATE ∧ g0.unknown_state_errors = 0
      ∧ g0.fired = [] ∧ g0.player_1.score = 0 ∧ g0.player_2.score = 0 := by
  unfold game_init at hinit
  rw [initialize_game_fsm_eq] at hinit
  simp only [Option.bind_eq_bind, Option.some_bind, Option.pure_def, Option.some.injEq] at hinit
  subst hinit
  exact ⟨⟨(is_game_fsm_iff _).2 rfl, by simp [fsm_state, START_STATE]⟩, rfl, rfl, rfl, rfl, rfl⟩

/-- A state at a later index of a run lies in the run that continues from the frame processed
at the earlier index. -/
theorem app_loop_later (env : collaborators) (inputs : List frame_input) (g gi gj : game_t)
    (i j : Nat) (hi : (app_loop env inputs g)[i]? = some gi)
    (hj : (app_loop env inputs g)[j]? = some gj) (hij : i < j) :
    ∃ input rest, inputs.drop i = input :: rest ∧ gi.running = true ∧
      (app_loop env rest (app_frame env input gi))[j - i - 1]? = some gj := by
  have hd := app_loop_drop env i inputs g gi hi
  obtain ⟨k, rfl⟩ : ∃ k, j = i + (k + 1) := ⟨j - i - 1, by omega⟩
  rw [← List.getElem?_drop, hd] at hj
  cases hins : inputs.drop i with
  | nil => simp [hins, app_loop] at hj
  | cons input rest =>
    rw [hins] at hj
    cases hr : gi.running with
    | false => simp [app_loop_stopped env _ gi hr] at hj
    | true =>
      rw [app_loop_running env input rest gi hr, List.getElem?_cons_succ] at hj
      refine ⟨input, rest, rfl, rfl, ?_⟩
      rw [show i + (k + 1) - i - 1 = k by omega]
      exact hj

theorem in_game_states_trigger_all (triggers : List Nat) :
    ∀ fsm, in_game_states fsm → (∀ t ∈ triggers, t < TRIGGER_COUNT) →
      in_game_states (fsm_trigger_all fsm triggers) := by
  induction triggers with
  | nil => exact fun fsm h _ => h
  | cons t rest ih =>
    intro fsm h ht
    unfold fsm_trigger_all
    rw [List.foldl_cons]
    exact ih _ (in_game_states_trigger fsm t h (ht t (List.mem_cons_self t rest)))
      (fun u hu => ht u (List.mem_cons_of_mem t hu))

/-- Every state of a run from a session whose machine is the game's, in one of the five states,
is such a session again, and the error count never moves. -/
theorem app_loop_in_game_states (env : collaborators) (inputs : List frame_input) (g : game_t)
    (h : in_game_states g.fsm) :
    ∀ g1 ∈ app_loop env inputs g,
      in_game_states g1.fsm ∧ g1.unknown_state_errors = g.unknown_state_errors := by
  apply app_loop_invariant env
    (fun g1 => in_game_states g1.fsm ∧ g1.unknown_state_errors = g.unknown_state_errors)
  · intro input g1 hg1
    refine ⟨in_game_states_app_frame env input g1 hg1.1, ?_⟩
    unfold app_frame
    rw [frame_unknown_state_errors]
    · rw [← hg1.2]
      split_ifs <;> rfl
    · split_ifs <;> exact hg1.1
  · exact ⟨h, rfl⟩

theorem fsm_trigger_state (fsm : fsm_t) (state trigger : Nat) (h : is_game_fsm fsm)
    (hc : fsm_state fsm = state) (hs : state < STATE_COUNT) (ht : trigger < TRIGGER_COUNT) :
    fsm_state (fsm_trigger fsm trigger) = documented_transition state trigger := by
  unfold fsm_state at hc ⊢
  rw [fsm_trigger_documented fsm trigger h (hc ▸ hs) ht, hc]

/-- In Terminate a frame only stops the application. -/
theorem frame_in_term (env : collaborators) (actions : actions_t) (delta : ℚ) (g : game_t)
    (hterm : fsm_state g.fsm = TERM_STATE) :
    game_process_frame env actions delta g = app_stop g := by
  unfold game_process_frame
  rw [hterm]
  simp [TERM_STATE, START_STATE, PLAYING_STATE, PAUSE_STATE, GAME_OVER_STATE]

/-- In GameOver a frame only fires "always". -/
theorem frame_in_game_over (env : collaborators) (actions : actions_t) (delta : ℚ) (g : game_t)
    (hover : fsm_state g.fsm = GAME_OVER_STATE) :
    game_process_frame env actions delta g = fire g ALWAYS_TRIGGER := by
  unfold game_process_frame
  rw [hover]
  simp [START_STATE, PLAYING_STATE, PAUSE_STATE, GAME_OVER_STATE]

/-- In Playing a frame is input then update. -/
theorem frame_in_playing (env : collaborators) (actions : actions_t) (delta : ℚ) (g : game_t)
    (hplay : fsm_state g.fsm = PLAYING_STATE) :
    game_process_frame env actions delta g = do_update env delta (do_input actions g) := by
  unfold game_process_frame
  rw [hplay]
  simp [START_STATE, PLAYING_STATE, playing_state_process_frame]

/-- Once the machine is in Terminate, every later state of the run is in Terminate and no
trigger is fired any more. -/
theorem app_loop_in_term (env : collaborators) (inputs : List frame_input) (g : game_t)
    (hterm : fsm_state g.fsm = TERM_STATE) :
    ∀ g1 ∈ app_loop env inputs g, fsm_state g1.fsm = TERM_STATE ∧ g1.fired = g.fired := by
  apply app_loop_invariant env (fun g1 => fsm_state g1.fsm = TERM_STATE ∧ g1.fired = g.fired)
  · intro input g1 hg1
    unfold app_frame
    rw [frame_in_term]
    · constructor
      · rw [← hg1.1]
        unfold app_stop
        split_ifs <;> rfl
      · rw [← hg1.2]
        unfold app_stop
        split_ifs <;> rfl
    · rw [← hg1.1]
      split_ifs <;> rfl
  · exact ⟨hterm, rfl⟩

/-! ## Goal handling, input and the quit path -/

/-- C3: goal event postcondition of `check_goal_conditions`: when the left-goal predicate holds
for the ball, player 2's score grows by exactly 1, player 1's is unchanged and the ball becomes
what `ball_configure` produces on the field; when it is false and the right-goal predicate holds,
the same with the players swapped; when neither holds, both scores and the ball are unchanged. -/
theorem check_goal_conditions_goal (env : collaborators) (g : game_t) :
    (env.field_is_subject_in_left_goal g.field g.ball.transform = true →
      (check_goal_conditions env g).player_2.score = g.player_2.score + 1 ∧
      (check_goal_conditions env g).player_1.score = g.player_1.score ∧
      (check_goal_conditions env g).ball = env.ball_configure g.ball g.field) ∧
    (env.field_is_subject_in_left_goal g.field g.ball.transform = false →
      env.field_is_subject_in_right_goal g.field g.ball.transform = true →
      (check_goal_conditions env g).player_1.score = g.player_1.score + 1 ∧
      (check_goal_conditions env g).player_2.score = g.player_2.score ∧
      (check_goal_conditions env g).ball = env.ball_configure g.ball g.field) ∧
    (env.field_is_subject_in_left_goal g.field g.ball.transform = false →
      env.field_is_subject_in_right_goal g.field g.ball.transform = false →
      (check_goal_conditions env g).player_1.score = g.player_1.score ∧
      (check_goal_conditions env g).player_2.score = g.player_2.score ∧
      (check_goal_conditions env g).ball = g.ball) := by
  unfold check_goal_conditions
  simp only [handle_goal, player_inc_score, fire]
  refine ⟨fun hl => ?_, fun hl hr => ?_, fun hl hr => ?_⟩
  · simp only [hl, if_true]
    split_ifs <;> exact ⟨rfl, rfl, rfl⟩
  · simp only [hl, hr, if_true, Bool.false_eq_true, if_false]
    split_ifs <;> exact ⟨rfl, rfl, rfl⟩
  · simp only [hl, hr, Bool.false_eq_true, if_false]
    split_ifs <;> exact ⟨rfl, rfl, rfl⟩

theorem check_goal_conditions_goal_witness :
    ((check_goal_conditions reference_collaborators sample_left_goal).player_2.score = 0 + 1 ∧
      (check_goal_conditions reference_collaborators sample_left_goal).player_1.score = 0 ∧
      (check_goal_conditions reference_collaborators sample_left_goal).ball
        = reference_collaborators.ball_configure sample_left_goal.ball sample_left_goal.field) ∧
    ((check_goal_conditions reference_collaborators sample_right_goal).player_1.score = 0 + 1 ∧
      (check_goal_conditions reference_collaborators sample_right_goal).player_2.score = 0 ∧
      (check_goal_conditions reference_collaborators sample_right_goal).ball
        = reference_collaborators.ball_configure sample_right_goal.ball sample_right_goal.field) ∧
    ((check_goal_conditions reference_collaborators (sample_session PLAYING_STATE)).player_1.score
        = 0 ∧
      (check_goal_conditions reference_collaborators (sample_session PLAYING_STATE)).player_2.score
        = 0 ∧
      (check_goal_conditions reference_collaborators (sample_session PLAYING_STATE)).ball
        = (sample_session PLAYING_STATE).ball) :=
  ⟨(check_goal_conditions_goal reference_collaborators sample_left_goal).1 (by decide),
   (check_goal_conditions_goal reference_collaborators sample_right_goal).2.1
     (by decide) (by decide),
   (check_goal_conditions_goal reference_collaborators (sample_session PLAYING_STATE)).2.2
     (by decide) (by decide)⟩

/-- C8: paddle velocity from input: after `do_input` the left paddle's velocity is
(0, (p1_down - p1_up) * 200) and the right paddle's is (0, (p2_down - p2_up) * 200), booleans
read as 0/1; so the vertical velocity is 0 when both or neither direction is set and otherwise
200 (down) or -200 (up), whatever the quit and pause actions are. -/
theorem do_input_paddle_velocity (actions : actions_t) (g : game_t) :
    (do_input actions g).left_paddle.vx = 0 ∧
    (do_input actions g).left_paddle.vy
      = ((bool_to_int actions.P1_DOWN - bool_to_int actions.P1_UP) * 200 : Int) ∧
    (do_input actions g).left_paddle.vy
      = (if actions.P1_DOWN = actions.P1_UP then 0 else if actions.P1_DOWN then 200 else -200) ∧
    (do_input actions g).right_paddle.vx = 0 ∧
    (do_input actions g).right_paddle.vy
      = ((bool_to_int actions.P2_DOWN - bool_to_int actions.P2_UP) * 200 : Int) ∧
    (do_input actions g).right_paddle.vy
      = (if actions.P2_DOWN = actions.P2_UP then 0 else if actions.P2_DOWN then 200 else -200) := by
  simp only [do_input, entity_set_velocity, true_and]
  constructor
  · cases actions.P1_DOWN <;> cases actions.P1_UP <;> simp [bool_to_int]
  · cases actions.P2_DOWN <;> cases actions.P2_UP <;> simp [bool_to_int]

/-- C5: quit end-to-end: in Playing, a frame whose action vector has quit set ends with the
machine in Terminate, whatever the other inputs and the goal check do, and the next
`game_process_frame` only clears the running flag: no trigger is fired and no entity, score or
other field changes. -/
theorem quit_end_to_end (env : collaborators) (actions next_actions : actions_t)
    (delta next_delta : ℚ) (g : game_t)
    (hfsm : is_game_fsm g.fsm) (hplay : fsm_state g.fsm = PLAYING_STATE)
    (hquit : actions.QUIT = true) :
    fsm_state (game_process_frame env actions delta g).fsm = TERM_STATE ∧
    game_process_frame env next_actions next_delta (game_process_frame env actions delta g)
      = { game_process_frame env actions delta g with running := false } := by
  have h1 : fsm_state (do_input actions g).fsm = TERM_STATE := by
    rw [do_input_fsm, hquit, if_pos rfl]
    exact fsm_trigger_state g.fsm PLAYING_STATE _ hfsm hplay (by decide) (by decide)
  have h1g : is_game_fsm (do_input actions g).fsm := by
    rw [do_input_fsm, hquit, if_pos rfl]
    exact is_game_fsm_trigger _ _ hfsm
  have h2 : fsm_state (game_process_frame env actions delta g).fsm = TERM_STATE := by
    rw [frame_in_playing env actions delta g hplay, do_update_fsm]
    split_ifs
    · exact fsm_trigger_state _ TERM_STATE _ h1g h1 (by decide) (by decide)
    · exact h1
  exact ⟨h2, frame_in_term env next_actions next_delta _ h2⟩

theorem quit_end_to_end_witness :
    fsm_state (game_process_frame reference_collaborators
        { no_actions with QUIT := true, PAUSE := true, P1_UP := true } (1 / 60)
        sample_right_goal).fsm = TERM_STATE ∧
    game_process_frame reference_collaborators no_actions (1 / 60)
        (game_process_frame reference_collaborators
          { no_actions with QUIT := true, PAUSE := true, P1_UP := true } (1 / 60)
          sample_right_goal)
      = { game_process_frame reference_collaborators
            { no_actions with QUIT := true, PAUSE := true, P1_UP := true } (1 / 60)
            sample_right_goal with running := false } :=
  quit_end_to_end reference_collaborators
    { no_actions with QUIT := true, PAUSE := true, P1_UP := true } no_actions (1 / 60) (1 / 60)
    sample_right_goal (by decide) (by decide) rfl

/-! ## GameOver and the guard state -/

/-- C9: GameOver is a non-re-entrant pass-through: in GameOver one `game_process_frame` leaves
the machine in Terminate and changes no entity, score or the field; and in every run from the
initial state, a state later in the run than one in GameOver is never in GameOver. -/
theorem game_over_is_pass_through (env : collaborators) :
    (∀ (actions : actions_t) (delta : ℚ) (g : game_t),
      is_game_fsm g.fsm → fsm_state g.fsm = GAME_OVER_STATE →
        fsm_state (game_process_frame env actions delta g).fsm = TERM_STATE ∧
        (game_process_frame env actions delta g).ball = g.ball ∧
        (game_process_frame env actions delta g).left_paddle = g.left_paddle ∧
        (game_process_frame env actions delta g).right_paddle = g.right_paddle ∧
        (game_process_frame env actions delta g).player_1 = g.player_1 ∧
        (game_process_frame env actions delta g).player_2 = g.player_2 ∧
        (game_process_frame env actions delta g).field = g.field) ∧
    (∀ (w h : Int) (g0 : game_t) (inputs : List frame_input) (i j : Nat) (gi gj : game_t),
      game_init env w h = some g0 →
      (app_run env inputs g0)[i]? = some gi → (app_run env inputs g0)[j]? = some gj → i < j →
      fsm_state gi.fsm = GAME_OVER_STATE → fsm_state gj.fsm ≠ GAME_OVER_STATE) := by
  have hstep : ∀ (actions : actions_t) (delta : ℚ) (g : game_t),
      is_game_fsm g.fsm → fsm_state g.fsm = GAME_OVER_STATE →
        fsm_state (game_process_frame env actions delta g).fsm = TERM_STATE := by
    intro actions delta g hfsm hover
    rw [frame_in_game_over env actions delta g hover, fire_fsm]
    exact fsm_trigger_state _ GAME_OVER_STATE _ hfsm hover (by decide) (by decide)
  constructor
  · intro actions delta g hfsm hover
    refine ⟨hstep actions delta g hfsm hover, ?_⟩
    rw [frame_in_game_over env actions delta g hover]
    exact ⟨rfl, rfl, rfl, rfl, rfl, rfl⟩
  · intro w h g0 inputs i j gi gj hinit hi hj hij hover
    unfold app_run at hi hj
    have h0 := (game_init_in_game_states env w h g0 hinit).1
    have hgi := (app_loop_in_game_states env inputs { g0 with running := true } h0 gi
      (List.getElem?_mem hi)).1
    obtain ⟨input, rest, _, _, hk⟩ := app_loop_later env inputs _ gi gj i j hi hj hij
    have hterm : fsm_state (app_frame env input gi).fsm = TERM_STATE := by
      unfold app_frame
      apply hstep
      · split_ifs <;> exact hgi.1
      · split_ifs <;> exact hover
    rw [(app_loop_in_term env rest _ hterm gj (List.getElem?_mem hk)).1]
    decide

theorem game_over_is_pass_through_witness :
    (fsm_state (game_process_frame reference_collaborators no_actions (1 / 60)
        (sample_session GAME_OVER_STATE)).fsm = TERM_STATE ∧
      (game_process_frame reference_collaborators no_actions (1 / 60)
        (sample_session GAME_OVER_STATE)).ball = (sample_session GAME_OVER_STATE).ball) ∧
    fsm_state (state_at sample_run 7).fsm = GAME_OVER_STATE ∧
    fsm_state (state_at sample_run 8).fsm ≠ GAME_OVER_STATE :=
  ⟨⟨((game_over_is_pass_through reference_collaborators).1 no_actions (1 / 60)
        (sample_session GAME_OVER_STATE) (by decide) (by decide)).1,
     ((game_over_is_pass_through reference_collaborators).1 no_actions (1 / 60)
        (sample_session GAME_OVER_STATE) (by decide) (by decide)).2.1⟩,
   by decide!,
   (game_over_is_pass_through reference_collaborators).2 800 600 (sample_session START_STATE)
     sample_inputs 7 8 (state_at sample_run 7) (state_at sample_run 8)
     game_init_sample (by decide!) (by decide!) (by decide) (by decide!)⟩

/-- C10: the guard state is never reached: from the initial state of the game's machine every
sequence of the six triggers ends in Start, Playing, Pause, GameOver or Terminate; and in every
run of frames from the initial session every state is one of these five, so the default branch
of `game_process_frame` is never taken (its error count stays 0). -/
theorem guard_state_unreachable (env : collaborators) (fsm : fsm_t) (triggers : List Nat)
    (w h : Int) (g0 : game_t) (inputs : List frame_input)
    (hfsm : initialize_game_fsm = some fsm) (htrig : ∀ t ∈ triggers, t < TRIGGER_COUNT)
    (hinit : game_init env w h = some g0) :
    fsm_state (fsm_trigger_all fsm triggers)
      ∈ [START_STATE, PLAYING_STATE, PAUSE_STATE, GAME_OVER_STATE, TERM_STATE] ∧
    ∀ g ∈ app_run env inputs g0,
      fsm_state g.fsm ∈ [START_STATE, PLAYING_STATE, PAUSE_STATE, GAME_OVER_STATE, TERM_STATE] ∧
      g.unknown_state_errors = 0 := by
  constructor
  · refine (in_game_states_trigger_all triggers fsm ?_ htrig).2
    rw [initialize_game_fsm_eq, Option.some.injEq] at hfsm
    subst hfsm
    exact ⟨by decide, by decide⟩
  · intro g hg
    have h0 := game_init_in_game_states env w h g0 hinit
    have hg1 := app_loop_in_game_states env inputs { g0 with running := true } h0.1 g hg
    exact ⟨hg1.1.2, hg1.2.trans h0.2.2.1⟩

theorem guard_state_unreachable_witness :
    fsm_state (fsm_trigger_all (sample_session START_STATE).fsm
        [QUIT_GAME_TRIGGER, ALWAYS_TRIGGER, INIT_DONE_TRIGGER, PAUSE_TRIGGER, GAME_OVER_TRIGGER,
          RESUME_TRIGGER, GAME_OVER_TRIGGER, ALWAYS_TRIGGER])
      ∈ [START_STATE, PLAYING_STATE, PAUSE_STATE, GAME_OVER_STATE, TERM_STATE] ∧
    ∀ g ∈ app_run reference_collaborators sample_inputs (sample_session START_STATE),
      fsm_state g.fsm ∈ [START_STATE, PLAYING_STATE, PAUSE_STATE, GAME_OVER_STATE, TERM_STATE] ∧
      g.unknown_state_errors = 0 :=
  guard_state_unreachable reference_collaborators (sample_session START_STATE).fsm
    [QUIT_GAME_TRIGGER, ALWAYS_TRIGGER, INIT_DONE_TRIGGER, PAUSE_TRIGGER, GAME_OVER_TRIGGER,
      RESUME_TRIGGER, GAME_OVER_TRIGGER, ALWAYS_TRIGGER]
    800 600 (sample_session START_STATE) sample_inputs (by decide) (by decide) game_init_sample

/-! ## Order of the simulation step and the paddles at the field's edges -/

theorem check_goal_conditions_paddles (env : collaborators) (g : game_t) :
    (check_goal_conditions env g).left_paddle = g.left_paddle ∧
    (check_goal_conditions env g).right_paddle = g.right_paddle := by
  unfold check_goal_conditions
  simp only [handle_goal, fire]
  split_ifs <;> exact ⟨rfl, rfl⟩

/-- C7 (counterexample): the specified order fails on the sample session with the left paddle at the top edge,
moving up, as `do_input` leaves it when player 1 holds up. -/
theorem do_update_order_counterexample :
    (do_update reference_collaborators (1 / 60)
        (do_input { no_actions with P1_UP := true } sample_paddle_at_top)).left_paddle
      = { transform := { x := 66, y := -3, w := 8, h := 128 }, vx := 0, vy := -200 } ∧
    (do_update_as_specified reference_collaborators (1 / 60)
        (do_input { no_actions with P1_UP := true } sample_paddle_at_top)).left_paddle
      = { transform := { x := 66, y := 0, w := 8, h := 128 }, vx := 0, vy := 200 } ∧
    do_update reference_collaborators (1 / 60)
        (do_input { no_actions with P1_UP := true } sample_paddle_at_top)
      ≠ do_update_as_specified reference_collaborators (1 / 60)
        (do_input { no_actions with P1_UP := true } sample_paddle_at_top) := by
  decide!

/-- C7 (amended): in `do_update` the collision pipeline runs first (pairwise resolution, then
boundary resolution), motion integration second and goal detection last; so each paddle ends
the step where its `update` carries it from its boundary-resolved state. -/
theorem do_update_order (env : collaborators) (delta : ℚ) (g : game_t) :
    do_update env delta g
      = check_goal_conditions env
          (update_entities env delta
            (collision_out_of_bounds_process env (collision_process env g))) ∧
    (do_update env delta g).left_paddle
      = paddle.update
          (collision_out_of_bounds_process env (collision_process env g)).left_paddle delta ∧
    (do_update env delta g).right_paddle
      = paddle.update
          (collision_out_of_bounds_process env (collision_process env g)).right_paddle delta := by
  refine ⟨rfl, ?_, ?_⟩
  · unfold do_update
    rw [(check_goal_conditions_paddles env _).1]
    rfl
  · unfold do_update
    rw [(check_goal_conditions_paddles env _).2]
    rfl

/-- The boundary response of a paddle that fits the field leaves it inside the field's vertical
bounds, whenever the reported edge is the top one for a paddle above the field and the bottom
one for a paddle below it. -/
theorem paddle_response_contained (field : aabb_t) (e : entity_t) (edge : aabb_edge_t)
    (hfit : e.transform.h ≤ field.h)
    (htop : e.transform.y < field.y → edge = .AABB_TOP_EDGE)
    (hbottom : field.y < e.transform.y →
      field.y + field.h < e.transform.y + e.transform.h → edge = .AABB_BOTTOM_EDGE) :
    within_vertical_bounds field
      (out_of_bounds_response
        (fun e edge => paddle.out_of_bounds (clamp_to_field field e edge) edge) edge e) := by
  have inside : edge ≠ .AABB_TOP_EDGE → edge ≠ .AABB_BOTTOM_EDGE →
      within_vertical_bounds field e := by
    intro h1 h2
    have hy : field.y ≤ e.transform.y := by
      by_contra hcon
      exact h1 (htop (by omega))
    refine ⟨hy, ?_⟩
    by_contra hcon
    exact h2 (hbottom (by omega) (by omega))
  cases edge with
  | AABB_NO_EDGE => exact inside (by decide) (by decide)
  | AABB_TOP_EDGE =>
    show field.y ≤ field.y ∧ field.y + e.transform.h ≤ field.y + field.h
    omega
  | AABB_BOTTOM_EDGE =>
    show field.y ≤ field.y + field.h - e.transform.h ∧
      field.y + field.h - e.transform.h + e.transform.h ≤ field.y + field.h
    omega
  | AABB_LEFT_EDGE => exact inside (by decide) (by decide)
  | AABB_RIGHT_EDGE => exact inside (by decide) (by decide)

/-- The boundary response of a paddle keeps its height. -/
theorem paddle_response_height (field : aabb_t) (e : entity_t) (edge : aabb_edge_t) :
    (out_of_bounds_response
      (fun e edge => paddle.out_of_bounds (clamp_to_field field e edge) edge) edge e).transform.h
      = e.transform.h := by
  cases edge <;> rfl

theorem check_goal_conditions_field (env : collaborators) (g : game_t) :
    (check_goal_conditions env g).field = g.field := by
  unfold check_goal_conditions
  simp only [handle_goal, fire]
  split_ifs <;> rfl

/-- A Playing frame keeps the field and, when the pairwise pass leaves the paddles alone, the
height of each paddle. -/
theorem playing_frame_keeps_sizes (env : collaborators) (actions : actions_t) (delta : ℚ)
    (g : game_t) (hpair : ∀ pool, (env.collision_process pool).2 = pool.2) :
    (playing_state_process_frame env actions delta g).field = g.field ∧
    (playing_state_process_frame env actions delta g).left_paddle.transform.h
      = g.left_paddle.transform.h ∧
    (playing_state_process_frame env actions delta g).right_paddle.transform.h
      = g.right_paddle.transform.h := by
  unfold playing_state_process_frame do_update
  rw [check_goal_conditions_field, (check_goal_conditions_paddles env _).1,
    (check_goal_conditions_paddles env _).2]
  have hin : (collision_process env (do_input actions g)).field = g.field ∧
      (collision_process env (do_input actions g)).left_paddle.transform
        = g.left_paddle.transform ∧
      (collision_process env (do_input actions g)).right_paddle.transform
        = g.right_paddle.transform := by
    unfold collision_process
    simp only [hpair]
    unfold do_input
    split_ifs <;> exact ⟨rfl, rfl, rfl⟩
  refine ⟨hin.1, ?_, ?_⟩
  · show (paddle.update (collision_out_of_bounds_process env
      (collision_process env (do_input actions g))).left_paddle delta).transform.h = _
    rw [← hin.2.1]
    exact paddle_response_height _ _ _
  · show (paddle.update (collision_out_of_bounds_process env
      (collision_process env (do_input actions g))).right_paddle delta).transform.h = _
    rw [← hin.2.2]
    exact paddle_response_height _ _ _

theorem playing_frames_keep_sizes (env : collaborators) (frames : List (actions_t × ℚ))
    (hpair : ∀ pool, (env.collision_process pool).2 = pool.2) :
    ∀ g : game_t, (playing_frames env frames g).field = g.field ∧
      (playing_frames env frames g).left_paddle.transform.h = g.left_paddle.transform.h ∧
      (playing_frames env frames g).right_paddle.transform.h = g.right_paddle.transform.h := by
  induction frames with
  | nil => exact fun g => ⟨rfl, rfl, rfl⟩
  | cons frame rest ih =>
    intro g
    have h1 := playing_frame_keeps_sizes env frame.1 frame.2 g hpair
    have h2 := ih (playing_state_process_frame env frame.1 frame.2 g)
    unfold playing_frames at h2 ⊢
    rw [List.foldl_cons]
    exact ⟨h2.1.trans h1.1, h2.2.1.trans h1.2.1, h2.2.2.trans h1.2.2⟩

/-- The reference edge classification reports the top edge for a box above the bounds and the
bottom edge for one below them. -/
theorem reference_edges (bounds subject : aabb_t) :
    (subject.y < bounds.y →
      reference_collaborators.aabb_crossed_edge bounds subject = .AABB_TOP_EDGE) ∧
    (bounds.y < subject.y → bounds.y + bounds.h < subject.y + subject.h →
      reference_collaborators.aabb_crossed_edge bounds subject = .AABB_BOTTOM_EDGE) := by
  constructor
  · intro h
    show aabb_crossed_edge bounds subject = _
    unfold aabb_crossed_edge
    rw [if_pos h]
  · intro h1 h2
    show aabb_crossed_edge bounds subject = _
    unfold aabb_crossed_edge
    rw [if_neg (by omega), if_pos h2]

theorem count_game_over_append (l : List Nat) (trigger : Nat) :
    (l ++ [trigger]).count GAME_OVER_TRIGGER
      = l.count GAME_OVER_TRIGGER + if trigger = GAME_OVER_TRIGGER then 1 else 0 := by
  rw [List.count_append, List.count_singleton]
  simp only [beq_iff_eq]

/-- A frame fires game-over at most once, and does so exactly when it is a Playing frame at
whose end a score is at least 5. -/
theorem frame_game_over_fired (env : collaborators) (actions : actions_t) (delta : ℚ)
    (g : game_t) (h : in_game_states g.fsm) :
    game_over_fired (game_process_frame env actions delta g)
      = game_over_fired g +
        if fsm_state g.fsm = PLAYING_STATE ∧
            (5 ≤ (game_process_frame env actions delta g).player_1.score
              ∨ 5 ≤ (game_process_frame env actions delta g).player_2.score)
        then 1 else 0 := by
  have hs := h.2
  simp only [List.mem_cons, List.mem_singleton, List.not_mem_nil, or_false] at hs
  unfold game_over_fired
  rcases hs with hs | hs | hs | hs | hs
  · have hne : ¬ fsm_state g.fsm = PLAYING_STATE := by rw [hs]; decide
    simp only [hne, false_and, if_false, Nat.add_zero]
    unfold game_process_frame start_state_process_frame
    rw [if_pos hs]
    split_ifs <;> first | rfl | (rw [fire_fired, count_game_over_append]; rfl)
  · rw [frame_in_playing env actions delta g hs, do_update_fired]
    simp only [hs, true_and]
    have hin : (do_input actions g).fired.count GAME_OVER_TRIGGER
        = g.fired.count GAME_OVER_TRIGGER := by
      rw [do_input_fired]
      split_ifs <;> first | rfl | (rw [count_game_over_append]; rfl)
    split_ifs
    · rw [count_game_over_append, hin]
      rfl
    · rw [hin]
      rfl
  · have hne : ¬ fsm_state g.fsm = PLAYING_STATE := by rw [hs]; decide
    simp only [hne, false_and, if_false, Nat.add_zero]
    unfold game_process_frame pause_state_process_frame
    rw [if_neg (by rw [hs]; decide), if_neg hne, if_pos hs]
    split_ifs <;> first | rfl | (rw [fire_fired, count_game_over_append]; rfl)
  · have hne : ¬ fsm_state g.fsm = PLAYING_STATE := by rw [hs]; decide
    simp only [hne, false_and, if_false, Nat.add_zero]
    rw [frame_in_game_over env actions delta g hs, fire_fired, count_game_over_append]
    rfl
  · have hne : ¬ fsm_state g.fsm = PLAYING_STATE := by rw [hs]; decide
    simp only [hne, false_and, if_false, Nat.add_zero]
    rw [frame_in_term env actions delta g hs]
    rfl

/-- After a Playing frame that fired game-over the machine is in Terminate (quit was pressed),
in Pause (pause was pressed) or in GameOver. -/
theorem frame_state_after_win (env : collaborators) (actions : actions_t) (delta : ℚ)
    (g : game_t) (h : is_game_fsm g.fsm) (hplay : fsm_state g.fsm = PLAYING_STATE)
    (hwin : 5 ≤ (game_process_frame env actions delta g).player_1.score
      ∨ 5 ≤ (game_process_frame env actions delta g).player_2.score) :
    fsm_state (game_process_frame env actions delta g).fsm
      = if actions.QUIT then TERM_STATE
        else if actions.PAUSE then PAUSE_STATE else GAME_OVER_STATE := by
  rw [frame_in_playing env actions delta g hplay] at hwin ⊢
  rw [do_update_fsm, if_pos hwin, do_input_fsm]
  have hquit : fsm_state (fsm_trigger g.fsm QUIT_GAME_TRIGGER) = TERM_STATE :=
    fsm_trigger_state _ PLAYING_STATE _ h hplay (by decide) (by decide)
  have hpause : fsm_state (fsm_trigger g.fsm PAUSE_TRIGGER) = PAUSE_STATE :=
    fsm_trigger_state _ PLAYING_STATE _ h hplay (by decide) (by decide)
  split_ifs
  · exact fsm_trigger_state _ TERM_STATE _ (is_game_fsm_trigger _ _ h) hquit
      (by decide) (by decide)
  · exact fsm_trigger_state _ PAUSE_STATE _ (is_game_fsm_trigger _ _ h) hpause
      (by decide) (by decide)
  · exact fsm_trigger_state _ PLAYING_STATE _ h hplay (by decide) (by decide)

/-- From GameOver or Terminate on, no state of the run has another game-over trigger fired. -/
theorem app_loop_after_game_over (env : collaborators) (inputs : List frame_input) (g : game_t)
    (h : in_game_states g.fsm)
    (hs : fsm_state g.fsm = GAME_OVER_STATE ∨ fsm_state g.fsm = TERM_STATE) :
    ∀ g1 ∈ app_loop env inputs g, game_over_fired g1 = game_over_fired g := by
  have key := app_loop_invariant env
    (fun g1 => in_game_states g1.fsm ∧
      (fsm_state g1.fsm = GAME_OVER_STATE ∨ fsm_state g1.fsm = TERM_STATE) ∧
      game_over_fired g1 = game_over_fired g) ?_ inputs g ⟨h, hs, rfl⟩
  · exact fun g1 hg1 => (key g1 hg1).2.2
  · intro input g1 ⟨hin, hst, hcount⟩
    have hin1 : in_game_states (if input.os_quit = true then { g1 with running := false }
        else g1).fsm := by
      split_ifs <;> exact hin
    have hst1 : fsm_state (if input.os_quit = true then { g1 with running := false }
        else g1).fsm = fsm_state g1.fsm := by
      split_ifs <;> rfl
    have hcount1 : game_over_fired (if input.os_quit = true then { g1 with running := false }
        else g1) = game_over_fired g1 := by
      split_ifs <;> rfl
    refine ⟨in_game_states_app_frame env input g1 hin, ?_, ?_⟩
    · unfold app_frame
      right
      rcases hst with hst | hst
      · rw [frame_in_game_over env _ _ _ (hst1.trans hst), fire_fsm]
        exact fsm_trigger_state _ GAME_OVER_STATE _ hin1.1 (hst1.trans hst)
          (by decide) (by decide)
      · rw [frame_in_term env _ _ _ (hst1.trans hst)]
        exact hst1.trans hst
    · unfold app_frame
      rw [frame_game_over_fired env _ _ _ hin1, hcount1, hcount, hst1]
      have hne : ¬ fsm_state g1.fsm = PLAYING_STATE := by
        rcases hst with hst | hst <;> rw [hst] <;> decide
      simp [hne]

/-- C4 (counterexample): game-over is fired twice at the same score.  In the sample match on
an 800 by 600 window, pause is pressed in the frame of player 1's fifth goal: the trigger is
fired from Pause without effect (index 7), the game resumes (index 8), and the next Playing
frame fires it again with the scores still 5 to 0 (index 9).  Each entry is the state after a
frame: machine state, the two scores, game-over triggers fired so far. -/
theorem game_over_fired_twice :
    game_init reference_collaborators 800 600 = some (sample_session START_STATE) ∧
    (app_run reference_collaborators pause_on_winning_goal_inputs
        (sample_session START_STATE)).map
      (fun g => (fsm_state g.fsm, g.player_1.score, g.player_2.score, game_over_fired g))
      = [(START_STATE, 0, 0, 0), (PLAYING_STATE, 0, 0, 0), (PLAYING_STATE, 0, 0, 0),
         (PLAYING_STATE, 1, 0, 0), (PLAYING_STATE, 2, 0, 0), (PLAYING_STATE, 3, 0, 0),
         (PLAYING_STATE, 4, 0, 0), (PAUSE_STATE, 5, 0, 1), (PLAYING_STATE, 5, 0, 1),
         (GAME_OVER_STATE, 5, 0, 2), (TERM_STATE, 5, 0, 2), (TERM_STATE, 5, 0, 2)] := by
  decide!

/-- C4 (amended): in every run from the initial session, a frame fires the game-over trigger
at most once, and fires it exactly when it is a Playing frame at whose end a player's score is
at least 5; when the machine is not in Pause after such a frame (pause was not pressed in it),
the trigger is fired in no later frame.  What a pause pressed in that same frame leads to after
the resume is not promised. -/
theorem game_over_fired_when_won (env : collaborators) (w h : Int) (g0 : game_t)
    (inputs : List frame_input) (k : Nat) (gk gk1 : game_t)
    (hinit : game_init env w h = some g0)
    (hk : (app_run env inputs g0)[k]? = some gk)
    (hk1 : (app_run env inputs g0)[k + 1]? = some gk1) :
    game_over_fired gk1
      = game_over_fired gk +
        (if fsm_state gk.fsm = PLAYING_STATE ∧ (5 ≤ gk1.player_1.score ∨ 5 ≤ gk1.player_2.score)
         then 1 else 0) ∧
    (game_over_fired gk1 = game_over_fired gk + 1 → fsm_state gk1.fsm ≠ PAUSE_STATE →
      ∀ (j : Nat) (gj : game_t), k + 1 ≤ j → (app_run env inputs g0)[j]? = some gj →
        game_over_fired gj = game_over_fired gk1) := by
  unfold app_run at hk hk1 ⊢
  have h0 := (game_init_in_game_states env w h g0 hinit).1
  have hgk := (app_loop_in_game_states env inputs { g0 with running := true } h0 gk
    (List.getElem?_mem hk)).1
  have hgk1 := (app_loop_in_game_states env inputs { g0 with running := true } h0 gk1
    (List.getElem?_mem hk1)).1
  obtain ⟨input, rest, _, _, hk2⟩ := app_loop_later env inputs _ gk gk1 k (k + 1) hk hk1 (by omega)
  rw [show k + 1 - k - 1 = 0 by omega, app_loop_head, Option.some.injEq] at hk2
  have hin1 : in_game_states (if input.os_quit = true then { gk with running := false }
      else gk).fsm := by
    split_ifs <;> exact hgk
  have hst1 : fsm_state (if input.os_quit = true then { gk with running := false }
      else gk).fsm = fsm_state gk.fsm := by
    split_ifs <;> rfl
  have hcount1 : game_over_fired (if input.os_quit = true then { gk with running := false }
      else gk) = game_over_fired gk := by
    split_ifs <;> rfl
  have hframe := frame_game_over_fired env input.actions input.delta _ hin1
  rw [hcount1, hst1] at hframe
  have hstep : app_frame env input gk = game_process_frame env input.actions input.delta
      (if input.os_quit = true then { gk with running := false } else gk) := rfl
  rw [← hstep, hk2] at hframe
  refine ⟨hframe, ?_⟩
  intro hfired hnopause j gj hj hgj
  have hwin : fsm_state gk.fsm = PLAYING_STATE ∧
      (5 ≤ gk1.player_1.score ∨ 5 ≤ gk1.player_2.score) := by
    by_contra hcon
    rw [if_neg hcon] at hframe
    omega
  have hafter := frame_state_after_win env input.actions input.delta _ hin1.1
    (hst1.trans hwin.1) (by rw [← hstep, hk2]; exact hwin.2)
  rw [← hstep, hk2] at hafter
  have hs : fsm_state gk1.fsm = GAME_OVER_STATE ∨ fsm_state gk1.fsm = TERM_STATE := by
    split_ifs at hafter
    · exact Or.inr hafter
    · exact absurd hafter hnopause
    · exact Or.inl hafter
  have hd := app_loop_drop env (k + 1) inputs _ gk1 hk1
  have hmem : gj ∈ app_loop env (inputs.drop (k + 1)) gk1 := by
    rw [← hd]
    apply List.getElem?_mem
    rw [List.getElem?_drop, show k + 1 + (j - (k + 1)) = j by omega]
    exact hgj
  exact app_loop_after_game_over env _ gk1 hgk1 hs gj hmem

theorem game_over_fired_when_won_witness :
    game_over_fired (state_at sample_run 7)
      = game_over_fired (state_at sample_run 6) +
        (if fsm_state (state_at sample_run 6).fsm = PLAYING_STATE ∧
            (5 ≤ (state_at sample_run 7).player_1.score
              ∨ 5 ≤ (state_at sample_run 7).player_2.score)
         then 1 else 0) ∧
    game_over_fired (state_at sample_run 9) = game_over_fired (state_at sample_run 7) :=
  ⟨(game_over_fired_when_won reference_collaborators 800 600 (sample_session START_STATE)
      sample_inputs 6 (state_at sample_run 6) (state_at sample_run 7)
      game_init_sample (by decide!) (by decide!)).1,
   (game_over_fired_when_won reference_collaborators 800 600 (sample_session START_STATE)
      sample_inputs 6 (state_at sample_run 6) (state_at sample_run 7)
      game_init_sample (by decide!) (by decide!)).2 (by decide!) (by decide!)
      9 (state_at sample_run 9) (by decide) (by decide!)⟩

/-! ## Motion integration of a paddle -/

/-- The conversion to `int` gives 0 exactly for the values of magnitude below 1. -/
theorem float_to_int_eq_zero_iff (f : ℚ) : float_to_int f = 0 ↔ |f| < 1 := by
  unfold float_to_int
  split_ifs with h
  · rw [Int.floor_eq_zero_iff, abs_of_nonneg h]
    exact ⟨fun hf => hf.2, fun hf => ⟨h, hf⟩⟩
  · have hneg : f < 0 := not_le.1 h
    rw [Int.ceil_eq_zero_iff, abs_of_neg hneg]
    constructor
    · intro hf
      linarith [hf.1]
    · intro hf
      exact ⟨by linarith, le_of_lt hneg⟩

theorem round_half_even_ge (m : Int) (x : ℚ) (h : (m : ℚ) ≤ x) : m ≤ round_half_even x := by
  have hf : m ≤ ⌊x⌋ := Int.le_floor.2 h
  unfold round_half_even
  split_ifs <;> omega

theorem round_half_even_le (m : Int) (x : ℚ) (h : x ≤ (m : ℚ)) : round_half_even x ≤ m := by
  have hf : ⌊x⌋ ≤ m := Int.cast_le.1 ((Int.floor_le x).trans h)
  unfold round_half_even
  split_ifs with h1 h2 h3
  · exact hf
  · have : (⌊x⌋ : ℚ) < m := by linarith
    have := Int.cast_lt.1 this
    omega
  · exact hf
  · have : (⌊x⌋ : ℚ) < m := by linarith
    have := Int.cast_lt.1 this
    omega

theorem highest_bit_spec (fuel : Nat) : ∀ n : Nat, n ≤ fuel → n ≠ 0 →
    2 ^ highest_bit fuel n ≤ n ∧ n < 2 ^ (highest_bit fuel n + 1) := by
  induction fuel with
  | zero => intro n h1 h2; omega
  | succ fuel ih =>
    intro n h1 h2
    unfold highest_bit
    split_ifs with hlt
    · constructor <;> simp <;> omega
    · have hih := ih (n / 2) (by omega) (by omega)
      rw [pow_succ, pow_succ]
      constructor <;> omega

theorem abs_eq_num_div_den (q : ℚ) : |q| = (q.num.natAbs : ℚ) / (q.den : ℚ) := by
  have h : q = (q.num : ℚ) / (q.den : ℚ) := (Rat.num_div_den q).symm
  conv_lhs => rw [h]
  rw [abs_div, Nat.abs_cast, Nat.cast_natAbs, Int.cast_abs]

theorem float_exponent_spec (q : ℚ) (hq : q ≠ 0) :
    (2 : ℚ) ^ float_exponent q ≤ |q| ∧ |q| < (2 : ℚ) ^ (float_exponent q + 1) := by
  have hn : q.num.natAbs ≠ 0 := by
    simpa using hq
  have hd : q.den ≠ 0 := q.den_nz
  obtain ⟨hn1, hn2⟩ := highest_bit_spec q.num.natAbs q.num.natAbs (le_refl _) hn
  obtain ⟨hd1, hd2⟩ := highest_bit_spec q.den q.den (le_refl _) hd
  unfold float_exponent
  generalize highest_bit q.num.natAbs q.num.natAbs = a at hn1 hn2 ⊢
  generalize highest_bit q.den q.den = b at hd1 hd2 ⊢
  have hn1q : (2 : ℚ) ^ a ≤ (q.num.natAbs : ℚ) := by exact_mod_cast hn1
  have hn2q : (q.num.natAbs : ℚ) < (2 : ℚ) ^ (a + 1) := by exact_mod_cast hn2
  have hd1q : (2 : ℚ) ^ b ≤ (q.den : ℚ) := by exact_mod_cast hd1
  have hd2q : (q.den : ℚ) < (2 : ℚ) ^ (b + 1) := by exact_mod_cast hd2
  have hdpos : (0 : ℚ) < (q.den : ℚ) := by exact_mod_cast Nat.pos_of_ne_zero hd
  have hpow : ∀ k : Nat, (0 : ℚ) < (2 : ℚ) ^ k := fun k => pow_pos (by norm_num) k
  have habs := abs_eq_num_div_den q
  have hz : ∀ x y : Nat, (2 : ℚ) ^ ((x : Int) - (y : Int)) = (2 : ℚ) ^ x / (2 : ℚ) ^ y := by
    intro x y
    rw [zpow_sub₀ (by norm_num : (2 : ℚ) ≠ 0), zpow_natCast, zpow_natCast]
  split_ifs with hlt
  · constructor
    · have he : (a : Int) - (b : Int) - 1 = (a : Int) - ((b + 1 : Nat) : Int) := by
        push_cast
        ring
      rw [he, hz a (b + 1), habs, div_le_div_iff₀ (hpow _) hdpos]
      calc (2 : ℚ) ^ a * (q.den : ℚ) ≤ (q.num.natAbs : ℚ) * (q.den : ℚ) :=
            mul_le_mul_of_nonneg_right hn1q hdpos.le
        _ ≤ (q.num.natAbs : ℚ) * (2 : ℚ) ^ (b + 1) :=
            mul_le_mul_of_nonneg_left hd2q.le (Nat.cast_nonneg _)
    · rw [sub_add_cancel]
      exact hlt
  · constructor
    · exact not_lt.1 hlt
    · have he : (a : Int) - (b : Int) + 1 = ((a + 1 : Nat) : Int) - (b : Int) := by
        push_cast
        ring
      rw [he, hz (a + 1) b, habs, div_lt_div_iff₀ hdpos (hpow _)]
      calc (q.num.natAbs : ℚ) * (2 : ℚ) ^ b < (2 : ℚ) ^ (a + 1) * (2 : ℚ) ^ b :=
            mul_lt_mul_of_pos_right hn2q (hpow _)
        _ ≤ (2 : ℚ) ^ (a + 1) * (q.den : ℚ) :=
            mul_le_mul_of_nonneg_left hd1q (hpow _).le

/-- Within magnitude 2^24 the spacing of binary32 values is at most 1, so rounding does not
carry a value across a whole number. -/
theorem float_round_int_bounds (q : ℚ) (hq : |q| < 2 ^ 24) (n : Int) :
    ((n : ℚ) ≤ q → (n : ℚ) ≤ float_round q) ∧ (q ≤ (n : ℚ) → float_round q ≤ (n : ℚ)) := by
  by_cases h0 : q = 0
  · subst h0
    simp [float_round]
  · have hspec := float_exponent_spec q h0
    have hfe : float_exponent q < 24 := by
      have hlt : (2 : ℚ) ^ float_exponent q < (2 : ℚ) ^ (24 : Int) := by
        have : ((2 : ℚ) ^ (24 : Int)) = 2 ^ 24 := by norm_num
        rw [this]
        exact lt_of_le_of_lt hspec.1 hq
      exact (zpow_lt_zpow_iff_right₀ (by norm_num : (1 : ℚ) < 2)).1 hlt
    have he : max (float_exponent q) (-126) ≤ 23 := by omega
    unfold float_round
    rw [if_neg h0]
    generalize max (float_exponent q) (-126) = e at he
    obtain ⟨k, hk⟩ : ∃ k : Nat, (k : Int) = 23 - e := ⟨(23 - e).toNat, by omega⟩
    have hulp : (2 : ℚ) ^ (e - 23) = ((2 : ℚ) ^ k)⁻¹ := by
      rw [show e - 23 = -(k : Int) by omega, zpow_neg, zpow_natCast]
    have hkpos : (0 : ℚ) < (2 : ℚ) ^ k := pow_pos (by norm_num) k
    rw [hulp, div_inv_eq_mul]
    constructor
    · intro hn
      have h1 : (((n * 2 ^ k : Int)) : ℚ) ≤ q * 2 ^ k := by
        push_cast
        exact mul_le_mul_of_nonneg_right hn hkpos.le
      have h2 := round_half_even_ge _ _ h1
      have h3 : ((n * 2 ^ k : Int) : ℚ) ≤ (round_half_even (q * 2 ^ k) : ℚ) := by
        exact_mod_cast h2
      rw [le_mul_inv_iff₀ hkpos]
      push_cast at h3
      exact h3
    · intro hn
      have h1 : q * 2 ^ k ≤ (((n * 2 ^ k : Int)) : ℚ) := by
        push_cast
        exact mul_le_mul_of_nonneg_right hn hkpos.le
      have h2 := round_half_even_le _ _ h1
      have h3 : (round_half_even (q * 2 ^ k) : ℚ) ≤ ((n * 2 ^ k : Int) : ℚ) := by
        exact_mod_cast h2
      rw [mul_inv_le_iff₀ hkpos]
      push_cast at h3
      exact h3


theorem float_to_int_ge (n : Int) (f : ℚ) (h : (n : ℚ) ≤ f) : n ≤ float_to_int f := by
  unfold float_to_int
  split_ifs
  · exact Int.le_floor.2 h
  · exact Int.cast_le.1 (h.trans (Int.le_ceil f))

theorem float_to_int_le (n : Int) (f : ℚ) (h : f ≤ (n : ℚ)) : float_to_int f ≤ n := by
  unfold float_to_int
  split_ifs
  · exact Int.cast_le.1 ((Int.floor_le f).trans h)
  · exact Int.ceil_le.2 h

/-- What the rounded and truncated product is, for an exact product `q` below 2^24 in
magnitude: a whole number on the same side of every whole number as `q`, hence less than 1
away from `q` and equal to it when `q` is whole. -/
theorem truncated_product (q : ℚ) (hq : |q| < 2 ^ 24) :
    (∀ n : Int, (n : ℚ) ≤ q → n ≤ float_to_int (float_round q)) ∧
    (∀ n : Int, q ≤ (n : ℚ) → float_to_int (float_round q) ≤ n) ∧
    |((float_to_int (float_round q) : Int) : ℚ) - q| < 1 := by
  have hge : ∀ n : Int, (n : ℚ) ≤ q → n ≤ float_to_int (float_round q) :=
    fun n hn => float_to_int_ge n _ ((float_round_int_bounds q hq n).1 hn)
  have hle : ∀ n : Int, q ≤ (n : ℚ) → float_to_int (float_round q) ≤ n :=
    fun n hn => float_to_int_le n _ ((float_round_int_bounds q hq n).2 hn)
  refine ⟨hge, hle, ?_⟩
  have h1 := hge ⌊q⌋ (Int.floor_le q)
  have h2 : float_to_int (float_round q) ≤ ⌊q⌋ + 1 :=
    hle (⌊q⌋ + 1) (by push_cast; exact (Int.lt_floor_add_one q).le)
  have hfl := Int.floor_le q
  have hlt := Int.lt_floor_add_one q
  rcases (by omega : float_to_int (float_round q) = ⌊q⌋ ∨
      float_to_int (float_round q) = ⌊q⌋ + 1) with h | h
  · rw [h, abs_lt]
    constructor <;> linarith
  · have hne : (⌊q⌋ : ℚ) ≠ q := by
      intro heq
      have := hle ⌊q⌋ heq.ge
      omega
    have hlt2 : (⌊q⌋ : ℚ) < q := lt_of_le_of_ne hfl hne
    rw [h, abs_lt]
    push_cast
    constructor <;> linarith

/-- The model of `update` at the frame of 265 ms: delta is the binary32 value next to 0.265,
the product rounds to 13893631/262144, just below 53, and the paddle moves 52. -/
theorem paddle_update_at_265_ms :
    frame_delta 1000 1265 = 2222981 / 8388608 ∧
    float_round (sample_moving_paddle.vy * frame_delta 1000 1265) = 13893631 / 262144 ∧
    (paddle.update sample_moving_paddle (frame_delta 1000 1265)).transform.y = 352 := by
  decide!

/-- C11 (counterexample): the exact position is not reached.  The sample paddle moves down at
200 per second: over a frame of 16 ms (delta is the binary32 value 8589935/536870912) its y
goes from 300 to 303 while 300 + 200 × delta is above 303, and over a frame of 4 ms, with
non-zero velocity and delta above 0, its y does not change. -/
theorem paddle_update_counterexample :
    frame_delta 1000 1016 = 8589935 / 536870912 ∧
    0 ≤ frame_delta 1000 1016 ∧
    (paddle.update sample_moving_paddle (frame_delta 1000 1016)).transform.y = 303 ∧
    (303 : ℚ)
      < sample_moving_paddle.transform.y + sample_moving_paddle.vy * frame_delta 1000 1016 ∧
    ((paddle.update sample_moving_paddle (frame_delta 1000 1016)).transform.y : ℚ)
      ≠ sample_moving_paddle.transform.y + sample_moving_paddle.vy * frame_delta 1000 1016 ∧
    sample_moving_paddle.vy ≠ 0 ∧ 0 < frame_delta 1000 1004 ∧
    (paddle.update sample_moving_paddle (frame_delta 1000 1004)).transform.y
      = sample_moving_paddle.transform.y := by
  decide!

/-- C11 (amended): for every paddle and every delta time of at least 0, with the products
vx × delta and vy × delta below 2^24 and the coordinates at most 2^30 in magnitude, after
`update` the position is x + trunc(fl(vx × delta)) and y + trunc(fl(vy × delta)), where fl
rounds the product to binary32 and trunc is the C conversion to `int` (toward zero); width,
height and velocity are unchanged and the coordinates stay within `int`.  Each coordinate is
less than 1 away from the exact x + vx × delta, y + vy × delta, and equals it when the product
is a whole number; y moves in the direction of vy; it changes exactly when the rounded product
is at least 1 in magnitude, which it is whenever |vy| × delta is at least 1. -/
theorem paddle_update_truncates (e : entity_t) (delta : ℚ) (hdelta : 0 ≤ delta)
    (hvx : |e.vx * delta| < 2 ^ 24) (hvy : |e.vy * delta| < 2 ^ 24)
    (hx : |e.transform.x| ≤ 2 ^ 30) (hy : |e.transform.y| ≤ 2 ^ 30) :
    (paddle.update e delta).transform.x
      = e.transform.x + float_to_int (float_round (e.vx * delta)) ∧
    (paddle.update e delta).transform.y
      = e.transform.y + float_to_int (float_round (e.vy * delta)) ∧
    (paddle.update e delta).transform.w = e.transform.w ∧
    (paddle.update e delta).transform.h = e.transform.h ∧
    (paddle.update e delta).vx = e.vx ∧
    (paddle.update e delta).vy = e.vy ∧
    |(paddle.update e delta).transform.x| < 2 ^ 31 ∧
    |(paddle.update e delta).transform.y| < 2 ^ 31 ∧
    |((paddle.update e delta).transform.x : ℚ) - (e.transform.x + e.vx * delta)| < 1 ∧
    |((paddle.update e delta).transform.y : ℚ) - (e.transform.y + e.vy * delta)| < 1 ∧
    (0 ≤ e.vy → e.transform.y ≤ (paddle.update e delta).transform.y) ∧
    (e.vy ≤ 0 → (paddle.update e delta).transform.y ≤ e.transform.y) ∧
    ((paddle.update e delta).transform.y ≠ e.transform.y
      ↔ 1 ≤ |float_round (e.vy * delta)|) ∧
    (1 ≤ |e.vy| * delta → (paddle.update e delta).transform.y ≠ e.transform.y) ∧
    (∀ n : Int, e.vx * delta = n → (paddle.update e delta).transform.x = e.transform.x + n) ∧
    (∀ n : Int, e.vy * delta = n → (paddle.update e delta).transform.y = e.transform.y + n) := by
  have hxe : (paddle.update e delta).transform.x
      = e.transform.x + float_to_int (float_round (e.vx * delta)) := rfl
  have hye : (paddle.update e delta).transform.y
      = e.transform.y + float_to_int (float_round (e.vy * delta)) := rfl
  obtain ⟨xge, xle, xnear⟩ := truncated_product (e.vx * delta) hvx
  obtain ⟨yge, yle, ynear⟩ := truncated_product (e.vy * delta) hvy
  have hxb := abs_lt.1 hvx
  have hyb := abs_lt.1 hvy
  have hx1 := xge (-(2 ^ 24)) (by push_cast; linarith [hxb.1])
  have hx2 := xle (2 ^ 24) (by push_cast; linarith [hxb.2])
  have hy1 := yge (-(2 ^ 24)) (by push_cast; linarith [hyb.1])
  have hy2 := yle (2 ^ 24) (by push_cast; linarith [hyb.2])
  have hxa := abs_le.1 hx
  have hya := abs_le.1 hy
  have near : ∀ (p t : Int) (f : ℚ), |(t : ℚ) - f| < 1 → |((p + t : Int) : ℚ) - (p + f)| < 1 := by
    intro p t f h
    have hrw : ((p + t : Int) : ℚ) - (p + f) = (t : ℚ) - f := by
      push_cast
      ring
    rw [hrw]
    exact h
  refine ⟨hxe, hye, rfl, rfl, rfl, rfl, ?_, ?_, ?_, ?_, ?_, ?_, ?_, ?_, ?_, ?_⟩
  · rw [hxe, abs_lt]
    constructor <;> omega
  · rw [hye, abs_lt]
    constructor <;> omega
  · rw [hxe]
    exact near _ _ _ xnear
  · rw [hye]
    exact near _ _ _ ynear
  · intro hv
    rw [hye]
    have := yge 0 (by push_cast; exact mul_nonneg hv hdelta)
    omega
  · intro hv
    rw [hye]
    have := yle 0 (by push_cast; exact mul_nonpos_of_nonpos_of_nonneg hv hdelta)
    omega
  · rw [hye, ← not_lt, ← float_to_int_eq_zero_iff]
    constructor
    · intro hne hzero
      exact hne (by rw [hzero, add_zero])
    · intro hne heq
      exact hne (by omega)
  · intro hmove
    rw [hye]
    rw [← abs_of_nonneg hdelta, ← abs_mul] at hmove
    rcases le_abs.1 hmove with h | h
    · have := yge 1 (by push_cast; exact h)
      omega
    · have := yle (-1) (by push_cast; linarith)
      omega
  · intro n hn
    rw [hxe]
    have h1 := xge n hn.ge
    have h2 := xle n hn.le
    omega
  · intro n hn
    rw [hye]
    have h1 := yge n hn.ge
    have h2 := yle n hn.le
    omega

theorem paddle_update_truncates_witness :
    sample_moving_paddle.transform.y
      ≤ (paddle.update sample_moving_paddle (frame_delta 1000 1016)).transform.y ∧
    (paddle.update sample_moving_paddle (frame_delta 1000 1250)).transform.y
      = sample_moving_paddle.transform.y + 50 :=
  ⟨(paddle_update_truncates sample_moving_paddle (frame_delta 1000 1016)
      (by decide!) (by decide!) (by decide!) (by decide!) (by decide!)).2.2.2.2.2.2.2.2.2.2.1
      (by decide!),
   (paddle_update_truncates sample_moving_paddle (frame_delta 1000 1250)
      (by decide!) (by decide!) (by decide!) (by decide!)
      (by decide!)).2.2.2.2.2.2.2.2.2.2.2.2.2.2.2 50 (by decide!)⟩

end Pong
